import Mathlib

/-!
# ChaosDefenseTD — verification of the simulation core

A shallow embedding, in Lean 4, of the parts of the ChaosDefenseTD
tower-defense simulation core that the specification's testable claims talk
about, together with theorems settling those claims.

Conventions used throughout the embedding:

* JavaScript numbers are modelled as rationals (`ℚ`); all the quantities the
  claims concern (positions, potencies, durations, damage, gold) stay exact
  under the operations involved, so `ℚ` is a faithful carrier.
* Grid coordinates are modelled as integers (`ℤ`), matching the integer
  tile coordinates of the source.
* A JavaScript object used as an id-keyed record (`Record<string, T>`) is
  modelled as an insertion-ordered association list `List T` whose elements
  carry their own `id` field; `Object.values`/`Object.keys` iteration order
  is insertion order for such records.
* `Math.sqrt d <= r` is modelled exactly as `0 ≤ r ∧ d ≤ r ^ 2` (the square
  root is nonnegative), avoiding irrational numbers.
* A method that can throw is modelled with `Except String` (or `Option`
  where the source returns `null`); a method that silently returns models as
  the identity on the state.
-/

/-- 2-D vector of world or tile coordinates (`types/game.ts`, `Vector2D`). -/
structure Vector2D where
  x : ℚ
  y : ℚ
deriving Repr, DecidableEq

/-- Squared Euclidean distance; the source computes `Math.sqrt` of this. -/
def getDistanceSq (a b : Vector2D) : ℚ :=
  (a.x - b.x) ^ 2 + (a.y - b.y) ^ 2

/-- `Math.sqrt d <= r`, expressed without square roots: the square root of a
nonnegative `d` is `≤ r` iff `r` is nonnegative and `d ≤ r ^ 2`. -/
def sqrtLe (d r : ℚ) : Bool :=
  decide (0 ≤ r ∧ d ≤ r ^ 2)

/-! ## Grid (`services/level_generation/Grid.ts`) -/

/-- A single tile of the game grid (`Grid.ts`, `interface Tile`). The
`TileType` union is modelled as a `String`. -/
structure Tile where
  x : ℤ
  y : ℤ
  tileType : String
deriving Repr, DecidableEq

/-- In-place update of the `i`-th entry of a list, used to model mutating
one slot of a JavaScript array. -/
def listModify {α : Type} (f : α → α) : ℕ → List α → List α
  | _, [] => []
  | 0, a :: as => f a :: as
  | n + 1, a :: as => a :: listModify f n as

/-- The game map (`Grid.ts`, `class Grid`): a `height × width` array of
tiles, stored row-major exactly like `_grid[y][x]`. -/
structure Grid where
  width : ℤ
  height : ℤ
  tiles : List (List Tile)
deriving Repr, DecidableEq

namespace Grid

/-- `Grid.isValidCoord`. -/
def isValidCoord (g : Grid) (x y : ℤ) : Bool :=
  decide (x ≥ 0 ∧ x < g.width ∧ y ≥ 0 ∧ y < g.height)

/-- The `Grid` constructor: rejects non-positive dimensions (it throws),
then fills every cell with a `BUILDABLE` tile (`initializeGrid`). -/
def make (width height : ℤ) : Except String Grid :=
  if width ≤ 0 ∨ height ≤ 0 then
    .error "Grid dimensions must be positive integers."
  else
    .ok { width := width, height := height,
          tiles := (List.range height.toNat).map fun y =>
            (List.range width.toNat).map fun x =>
              { x := (x : ℤ), y := (y : ℤ), tileType := "BUILDABLE" } }

/-- `Grid.getTile`: `null` (here `none`) out of bounds, otherwise the stored
tile `_grid[y][x]`. -/
def getTile (g : Grid) (x y : ℤ) : Option Tile :=
  if g.isValidCoord x y then
    g.tiles[y.toNat]?.bind fun row => row[x.toNat]?
  else
    none

/-- `Grid.setTileType`: throws out of bounds, otherwise mutates the
addressed tile's `tileType` in place. -/
def setTileType (g : Grid) (x y : ℤ) (tileType : String) : Except String Grid :=
  if ¬ g.isValidCoord x y then
    .error "Coordinate is out of grid bounds."
  else
    .ok { g with
          tiles := listModify (listModify (fun t => { t with tileType := tileType }) x.toNat)
            y.toNat g.tiles }

/-- Well-formedness of the backing store: the array really is
`height × width`. Every grid built by the constructor satisfies this, and
`setTileType` preserves it. -/
def WF (g : Grid) : Prop :=
  0 < g.width ∧ 0 < g.height ∧ g.tiles.length = g.height.toNat ∧
    ∀ row ∈ g.tiles, row.length = g.width.toNat

end Grid

/-! ### Helper lemmas about `listModify` -/

theorem listModify_length {α : Type} (f : α → α) :
    ∀ (n : ℕ) (l : List α), (listModify f n l).length = l.length := by
  intro n l
  induction l generalizing n with
  | nil => cases n <;> rfl
  | cons a as ih =>
    cases n with
    | zero => rfl
    | succ m => simp [listModify, ih]

theorem listModify_getElem?_ne {α : Type} (f : α → α) :
    ∀ (n i : ℕ) (l : List α), i ≠ n → (listModify f n l)[i]? = l[i]? := by
  intro n i l
  induction l generalizing n i with
  | nil => intro _; cases n <;> rfl
  | cons a as ih =>
    intro hne
    cases n with
    | zero =>
      cases i with
      | zero => exact absurd rfl hne
      | succ j => simp [listModify]
    | succ m =>
      cases i with
      | zero => simp [listModify]
      | succ j => simpa [listModify] using ih m j (by omega)

theorem listModify_getElem?_eq {α : Type} (f : α → α) :
    ∀ (n : ℕ) (l : List α), (listModify f n l)[n]? = l[n]?.map f := by
  intro n l
  induction l generalizing n with
  | nil => cases n <;> rfl
  | cons a as ih =>
    cases n with
    | zero => simp [listModify]
    | succ m => simpa [listModify] using ih m

theorem listModify_mem {α : Type} (f : α → α) :
    ∀ (n : ℕ) (l : List α) (b : α), b ∈ listModify f n l →
      b ∈ l ∨ ∃ a ∈ l, b = f a := by
  intro n l
  induction l generalizing n with
  | nil => intro b hb; cases n <;> exact absurd hb (by simp [listModify])
  | cons a as ih =>
    intro b hb
    cases n with
    | zero =>
      rcases List.mem_cons.mp hb with h | h
      · exact Or.inr ⟨a, by simp, h⟩
      · exact Or.inl (List.mem_cons_of_mem _ h)
    | succ m =>
      rcases List.mem_cons.mp hb with h | h
      · exact Or.inl (h ▸ List.mem_cons_self _ _)
      · rcases ih m b h with h' | ⟨c, hc, hbc⟩
        · exact Or.inl (List.mem_cons_of_mem _ h')
        · exact Or.inr ⟨c, List.mem_cons_of_mem _ hc, hbc⟩

namespace Grid

theorem getTile_eq_some_of_valid (g : Grid) (hwf : g.WF) (x y : ℤ)
    (hv : g.isValidCoord x y = true) : ∃ t, g.getTile x y = some t := by
  obtain ⟨-, -, hlen, hrows⟩ := hwf
  obtain ⟨hx0, hxw, hy0, hyh⟩ := of_decide_eq_true hv
  have hy : y.toNat < g.tiles.length := by rw [hlen]; omega
  have hrow : g.tiles[y.toNat]? = some g.tiles[y.toNat] := List.getElem?_eq_getElem hy
  have hrl : g.tiles[y.toNat].length = g.width.toNat :=
    hrows _ (List.getElem_mem hy)
  have hx : x.toNat < g.tiles[y.toNat].length := by rw [hrl]; omega
  exact ⟨g.tiles[y.toNat][x.toNat],
    by simp [getTile, hv, hrow, List.getElem?_eq_getElem hx]⟩

/-- **C10** — Grid tile access is total at the public interface: for every
integer coordinate `(x, y)`, `getTile` returns the stored tile exactly when
`0 ≤ x < width` and `0 ≤ y < height` and `null` otherwise (never throwing),
while `setTileType` throws on every out-of-bounds coordinate and, in bounds,
changes the addressed tile's type and nothing else. -/
theorem grid_tile_access_total (g : Grid) (hwf : g.WF) (x y : ℤ) (tileType : String) :
    ((∃ t, g.getTile x y = some t) ↔ g.isValidCoord x y = true) ∧
    ((∃ e, g.setTileType x y tileType = .error e) ↔ g.isValidCoord x y = false) ∧
    (∀ g', g.setTileType x y tileType = .ok g' →
      g'.width = g.width ∧ g'.height = g.height ∧ g'.WF ∧
      (∀ x' y', ¬(x' = x ∧ y' = y) → g'.getTile x' y' = g.getTile x' y') ∧
      g'.getTile x y = (g.getTile x y).map fun t => { t with tileType := tileType }) := by
  refine ⟨?_, ?_, ?_⟩
  · constructor
    · rintro ⟨t, ht⟩
      by_contra hv
      simp only [Bool.not_eq_true] at hv
      simp [getTile, hv] at ht
    · exact getTile_eq_some_of_valid g hwf x y
  · constructor
    · rintro ⟨e, he⟩
      by_contra hv
      simp only [Bool.not_eq_false] at hv
      simp [setTileType, hv] at he
    · intro hv
      exact ⟨"Coordinate is out of grid bounds.", by simp [setTileType, hv]⟩
  · intro g' hg'
    by_cases hv : g.isValidCoord x y = true
    · simp only [setTileType, hv, not_true, if_neg, ite_false, Except.ok.injEq,
        not_false_iff, if_false] at hg'
      obtain ⟨hx0, hxw, hy0, hyh⟩ := of_decide_eq_true hv
      obtain ⟨hw0, hh0, hlen, hrows⟩ := hwf
      subst hg'
      refine ⟨rfl, rfl, ?_, ?_, ?_⟩
      · refine ⟨hw0, hh0, by simpa [listModify_length] using hlen, ?_⟩
        intro row hrow
        rcases listModify_mem _ _ _ _ hrow with h | ⟨r0, hr0, hr0e⟩
        · exact hrows _ h
        · rw [hr0e, listModify_length]; exact hrows _ hr0
      · intro x' y' hne
        show getTile _ x' y' = getTile g x' y'
        unfold getTile
        by_cases hv' : g.isValidCoord x' y' = true
        · have hvc : isValidCoord { g with
              tiles := listModify (listModify (fun t => { t with tileType := tileType }) x.toNat)
                y.toNat g.tiles } x' y' = true := hv'
          rw [hvc, hv', if_pos rfl, if_pos rfl]
          obtain ⟨hx0', hxw', hy0', hyh'⟩ := of_decide_eq_true hv'
          by_cases hy' : y' = y
          · subst hy'
            have hxne : x' ≠ x := fun h => hne ⟨h, rfl⟩
            have hxnn : x'.toNat ≠ x.toNat := by omega
            simp only [listModify_getElem?_eq]
            cases hrow : g.tiles[y'.toNat]? with
            | none => rfl
            | some row =>
              simp [listModify_getElem?_ne _ _ _ _ hxnn]
          · have hynn : y'.toNat ≠ y.toNat := by omega
            rw [listModify_getElem?_ne _ _ _ _ hynn]
        · have hvc : isValidCoord { g with
              tiles := listModify (listModify (fun t => { t with tileType := tileType }) x.toNat)
                y.toNat g.tiles } x' y' = g.isValidCoord x' y' := rfl
          simp only [Bool.not_eq_true] at hv'
          rw [hvc, hv']
          simp
      · show getTile _ x y = _
        unfold getTile
        have hvc : isValidCoord { g with
            tiles := listModify (listModify (fun t => { t with tileType := tileType }) x.toNat)
              y.toNat g.tiles } x y = true := hv
        rw [hvc, hv, if_pos rfl, if_pos rfl, listModify_getElem?_eq]
        cases hrow : g.tiles[y.toNat]? with
        | none => rfl
        | some row =>
          simp [listModify_getElem?_eq]
    · simp only [Bool.not_eq_true] at hv
      simp [setTileType, hv] at hg'

end Grid

/-- A concrete well-formed 2×1 grid used as a witness input. -/
def gridTwoByOne : Grid :=
  { width := 2, height := 1,
    tiles := [[{ x := 0, y := 0, tileType := "BUILDABLE" },
               { x := 1, y := 0, tileType := "BUILDABLE" }]] }

theorem gridTwoByOne_wf : gridTwoByOne.WF := by
  refine ⟨by norm_num [gridTwoByOne], by norm_num [gridTwoByOne], rfl, ?_⟩
  intro row hrow
  simp [gridTwoByOne] at hrow
  subst hrow
  rfl

/-- Witness for `grid_tile_access_total` at a concrete 2×1 grid. -/
theorem grid_tile_access_total_witness :
    (∃ t, gridTwoByOne.getTile 0 0 = some t) ↔ gridTwoByOne.isValidCoord 0 0 = true :=
  (Grid.grid_tile_access_total gridTwoByOne gridTwoByOne_wf 0 0 "PATH").1

/-! ## Entity model (`types/game.ts`, `types/configs.d.ts`) -/

/-- A status-effect payload from configuration
(`types/configs.d.ts`, `StatusEffectValue`). -/
structure StatusEffectValue where
  id : String
  potency : ℚ
  duration : ℚ
deriving Repr, DecidableEq

/-- A status effect attached to an enemy (`types/game.ts`,
`ActiveStatusEffect`): the payload fields plus the running countdown and
the applying tower. -/
structure ActiveStatusEffect where
  id : String
  potency : ℚ
  duration : ℚ
  timeRemaining : ℚ
  sourceTowerId : String
deriving Repr, DecidableEq

/-- Base stats of an enemy type (`types/configs.d.ts`,
`EnemyTypeConfig.base_stats`). -/
structure EnemyBaseStats where
  hp : ℚ
  speed : ℚ
  armor : ℚ
  damage : ℚ
  bounty : ℚ
  immunities : List String
deriving Repr, DecidableEq

/-- An enemy type definition (`types/configs.d.ts`, `EnemyTypeConfig`). -/
structure EnemyTypeConfig where
  base_stats : EnemyBaseStats
  min_level_difficulty : ℚ
deriving Repr, DecidableEq

/-- A live enemy (`types/game.ts`, `EnemyInstance`). -/
structure EnemyInstance where
  id : String
  config : EnemyTypeConfig
  path : List Vector2D
  position : Vector2D
  currentHp : ℚ
  pathIndex : ℕ
  effects : List ActiveStatusEffect
  currentSpeed : ℚ
  currentArmor : ℚ
deriving Repr, DecidableEq

/-! ## Status-effect resolver
(`services/effects/StatusEffectManager.ts`, `applyEffect`) -/

/-- `StatusEffectManager.applyEffect`: no-op on an immune target; if an
active instance of the same kind exists, refresh it in place (larger
potency, longer remaining duration, source reassigned); otherwise append a
new active instance. Returns the updated enemy that the manager writes back
into the store. -/
def applyEffect (target : EnemyInstance) (effectData : StatusEffectValue)
    (sourceTowerId : String) : EnemyInstance :=
  if effectData.id ∈ target.config.base_stats.immunities then
    target
  else
    let newEffectsArray :=
      if target.effects.any (fun e => e.id == effectData.id) then
        target.effects.map fun effect =>
          if effect.id == effectData.id then
            { effect with
              potency := max effect.potency effectData.potency,
              timeRemaining := max effect.timeRemaining effectData.duration,
              sourceTowerId := sourceTowerId }
          else effect
      else
        target.effects ++
          [{ id := effectData.id, potency := effectData.potency,
             duration := effectData.duration,
             timeRemaining := effectData.duration,
             sourceTowerId := sourceTowerId }]
    { target with effects := newEffectsArray }

/-! ## Enemy mover stat folding
(`services/entities/EnemyManager.ts`, `applyEffectModifiers`) -/

/-- `EnemyManager.applyEffectModifiers`: reset derived speed/armor to base
stats, then fold the active effects — `slow` adds potency to a running slow
total, `stun` forces the slow total to 1, `armor_break` subtracts potency
from armor; finally apply the slow total (capped at 100 %) to the speed and
floor the armor at zero. -/
def applyEffectModifiers (enemy : EnemyInstance) : EnemyInstance :=
  let e0 := { enemy with
              currentSpeed := enemy.config.base_stats.speed,
              currentArmor := enemy.config.base_stats.armor }
  if e0.effects.isEmpty then e0
  else
    let acc := e0.effects.foldl (fun (acc : ℚ × ℚ) effect =>
        if effect.id == "slow" then (acc.1 + effect.potency, acc.2)
        else if effect.id == "stun" then (1, acc.2)
        else if effect.id == "armor_break" then (acc.1, acc.2 - effect.potency)
        else acc)
      (0, e0.currentArmor)
    let e1 :=
      if 0 < acc.1 then
        { e0 with currentSpeed := e0.currentSpeed * (1 - min acc.1 1) }
      else e0
    { e1 with currentArmor := max 0 acc.2 }

/-- **C3** — After the enemy mover's per-tick effect folding, the derived
speed and armor of an enemy (whose type's base speed and armor are
nonnegative) are nonnegative, for every combination of active effects:
slows are additive and capped at 100 % (a stun forcing the full cap), and
armor-break is subtracted but floored at zero. -/
theorem effect_folding_nonneg (enemy : EnemyInstance)
    (hsp : 0 ≤ enemy.config.base_stats.speed)
    (har : 0 ≤ enemy.config.base_stats.armor) :
    0 ≤ (applyEffectModifiers enemy).currentSpeed ∧
    0 ≤ (applyEffectModifiers enemy).currentArmor := by
  unfold applyEffectModifiers
  by_cases hemp : enemy.effects.isEmpty
  · simp only [hemp, if_true]
    exact ⟨hsp, har⟩
  · simp only [hemp, if_false, Bool.false_eq_true]
    set acc := enemy.effects.foldl (fun (acc : ℚ × ℚ) effect =>
        if effect.id == "slow" then (acc.1 + effect.potency, acc.2)
        else if effect.id == "stun" then (1, acc.2)
        else if effect.id == "armor_break" then (acc.1, acc.2 - effect.potency)
        else acc)
      (0, enemy.config.base_stats.armor) with hacc
  
    by_cases hsl : 0 < acc.1
    · simp only [hsl, if_true]
      refine ⟨mul_nonneg hsp ?_, le_max_left 0 _⟩
      have : min acc.1 1 ≤ 1 := min_le_right _ _
      linarith
    · simp only [hsl, if_false]
      exact ⟨hsp, le_max_left 0 _⟩

/-- A concrete enemy used by witnesses: one `slow`, one `stun` and one
`armor_break` effect active. -/
def sampleEnemy : EnemyInstance :=
  { id := "e1"
    config := { base_stats := { hp := 100, speed := 60, armor := 2, damage := 1,
                                bounty := 5, immunities := [] },
                min_level_difficulty := 0 }
    path := []
    position := { x := 0, y := 0 }
    currentHp := 100
    pathIndex := 0
    effects := [{ id := "slow", potency := 1/2, duration := 3, timeRemaining := 2,
                  sourceTowerId := "t1" },
                { id := "stun", potency := 1, duration := 1, timeRemaining := 1,
                  sourceTowerId := "t2" },
                { id := "armor_break", potency := 5, duration := 4, timeRemaining := 4,
                  sourceTowerId := "t3" }]
    currentSpeed := 60
    currentArmor := 2 }

/-- Witness for `effect_folding_nonneg` on `sampleEnemy`. -/
theorem effect_folding_nonneg_witness :
    0 ≤ (applyEffectModifiers sampleEnemy).currentSpeed ∧
    0 ≤ (applyEffectModifiers sampleEnemy).currentArmor :=
  effect_folding_nonneg sampleEnemy (by norm_num [sampleEnemy]) (by norm_num [sampleEnemy])

theorem list_map_eq_self {α : Type} {f : α → α} :
    ∀ l : List α, (∀ x ∈ l, f x = x) → l.map f = l := by
  intro l h
  induction l with
  | nil => rfl
  | cons a as ih =>
    rw [List.map_cons, h a (List.mem_cons_self _ _), ih fun x hx => h x (List.mem_cons_of_mem _ hx)]

/-- **C2** — Refresh law: applying a status effect of kind `K` to a
non-immune enemy that already carries exactly one active instance of kind
`K` leaves exactly one active instance of kind `K`, with potency
`max p1 p2`, remaining duration `max r1 d2`, and the source tower
reassigned to the latest applier — and, for every kind, the number of
active instances of that kind is unchanged, so at most one active instance
per kind is preserved. -/
theorem statusEffect_refresh_law (target : EnemyInstance) (effectData : StatusEffectValue)
    (src : String) (pre post : List ActiveStatusEffect) (e : ActiveStatusEffect)
    (himm : effectData.id ∉ target.config.base_stats.immunities)
    (hsplit : target.effects = pre ++ e :: post)
    (he : e.id = effectData.id)
    (hpre : ∀ x ∈ pre, x.id ≠ effectData.id)
    (hpost : ∀ x ∈ post, x.id ≠ effectData.id) :
    (applyEffect target effectData src).effects =
      pre ++ { e with
               potency := max e.potency effectData.potency,
               timeRemaining := max e.timeRemaining effectData.duration,
               sourceTowerId := src } :: post ∧
    ∀ k : String,
      (applyEffect target effectData src).effects.countP (fun x => x.id == k) =
        target.effects.countP (fun x => x.id == k) := by
  have hany : target.effects.any (fun x => x.id == effectData.id) = true := by
    refine List.any_eq_true.mpr ⟨e, ?_, by simp [he]⟩
    rw [hsplit]
    exact List.mem_append_right _ (List.mem_cons_self _ _)
  have hres : (applyEffect target effectData src).effects =
      target.effects.map fun effect =>
        if effect.id == effectData.id then
          { effect with
            potency := max effect.potency effectData.potency,
            timeRemaining := max effect.timeRemaining effectData.duration,
            sourceTowerId := src }
        else effect := by
    unfold applyEffect
    simp only [himm, if_false, hany, if_true, ite_false, ite_true]
  constructor
  · rw [hres, hsplit, List.map_append, List.map_cons]
    rw [list_map_eq_self pre fun x hx => by simp [hpre x hx]]
    rw [if_pos (by simp [he])]
    rw [list_map_eq_self post fun x hx => by simp [hpost x hx]]
  · intro k
    rw [hres, List.countP_map]
    refine List.countP_congr fun x _ => ?_
    by_cases hid : x.id == effectData.id
    · simp only [Function.comp_apply, hid, if_true, ite_true]
    · simp only [Function.comp_apply, hid, if_false, Bool.false_eq_true, ite_false]

/-- Witness for `statusEffect_refresh_law`: re-applying `slow` with potency
`3/4`, duration `5` to `sampleEnemy` (which carries `slow` at potency
`1/2`, remaining `2`). -/
theorem statusEffect_refresh_law_witness :
    (applyEffect sampleEnemy { id := "slow", potency := 3/4, duration := 5 } "t9").effects =
      [{ id := "slow", potency := 3/4, duration := 3, timeRemaining := 5,
         sourceTowerId := "t9" },
       { id := "stun", potency := 1, duration := 1, timeRemaining := 1,
         sourceTowerId := "t2" },
       { id := "armor_break", potency := 5, duration := 4, timeRemaining := 4,
         sourceTowerId := "t3" }] ∧
    ∀ k : String,
      ((applyEffect sampleEnemy { id := "slow", potency := 3/4, duration := 5 } "t9").effects.countP
          (fun x => x.id == k)) =
        sampleEnemy.effects.countP (fun x => x.id == k) := by
  have h := statusEffect_refresh_law sampleEnemy
    { id := "slow", potency := 3/4, duration := 5 } "t9" []
    [{ id := "stun", potency := 1, duration := 1, timeRemaining := 1, sourceTowerId := "t2" },
     { id := "armor_break", potency := 5, duration := 4, timeRemaining := 4,
       sourceTowerId := "t3" }]
    { id := "slow", potency := 1/2, duration := 3, timeRemaining := 2, sourceTowerId := "t1" }
    (by simp [sampleEnemy]) (by simp [sampleEnemy]) rfl (by simp) (by decide)
  refine ⟨?_, h.2⟩
  rw [h.1]
  norm_num

/-! ## Projectile resolver
(`services/projectiles/ProjectileManager.ts`) -/

/-- A live projectile (`types/game.ts`, `ProjectileInstance`). -/
structure ProjectileInstance where
  id : String
  sourceTowerId : String
  position : Vector2D
  targetId : String
  speed : ℚ
  damage : ℚ
  blastRadius : Option ℚ
  pierce : Option ℤ
  chains : Option ℤ
  effectsToApply : List StatusEffectValue
  onBlastEffects : Option (List StatusEffectValue)
  hitEnemyIds : List String
deriving Repr, DecidableEq

/-- `ProjectileManager.findNewTarget`: the closest enemy strictly within
`range` of `fromPosition` that is not in `hitIds`, scanning the collection
and keeping a strictly smaller squared distance, or `none`. -/
def findNewTarget (fromPosition : Vector2D) (allEnemies : List EnemyInstance)
    (hitIds : List String) (range : ℚ) : Option EnemyInstance :=
  (allEnemies.foldl (fun (acc : Option EnemyInstance × ℚ) enemy =>
      if enemy.id ∈ hitIds then acc
      else
        let distanceSq := getDistanceSq fromPosition enemy.position
        if distanceSq < acc.2 then (some enemy, distanceSq) else acc)
    (none, range * range)).1

/-- One iteration of the blast-radius loop of
`ProjectileManager.handleHit`: skip an enemy already in the accumulated
`hitEnemyIds`, otherwise damage it (recorded as a `(enemyId, damage)`
event — the `onBlastEffects` payloads go to exactly these ids) and record
it as struck. -/
def handleHitBlastStep (damage : ℚ) (acc : List String × List (String × ℚ))
    (blastEnemy : EnemyInstance) : List String × List (String × ℚ) :=
  if blastEnemy.id ∈ acc.1 then acc
  else (acc.1 ++ [blastEnemy.id], acc.2 ++ [(blastEnemy.id, damage)])

/-- The final pierce-and-chain state update block of
`ProjectileManager.handleHit`: consume a pierce charge if any remain, else
try to chain to the nearest untouched enemy (consuming a chain charge, or
zeroing the chain counter when none is found). -/
def pierceChainUpdate (p1 : ProjectileInstance) (targetPosition : Vector2D)
    (enemies : List EnemyInstance) : ProjectileInstance :=
  if 0 < p1.pierce.getD 0 then
    { p1 with pierce := some (p1.pierce.getD 0 - 1) }
  else if 0 < p1.chains.getD 0 then
    match findNewTarget targetPosition enemies p1.hitEnemyIds 200 with
    | some newTarget =>
        { p1 with targetId := newTarget.id, chains := some (p1.chains.getD 0 - 1) }
    | none => { p1 with chains := some 0 }
  else p1

/-- `ProjectileManager.handleHit`: primary-target damage (skipped if the
target is already in `hitEnemyIds`), then blast-radius splash over the
enemy snapshot (each not-yet-struck enemy within the radius damaged and
recorded), then the pierce/chain update (chain re-targeting through
`findNewTarget`, which only considers enemies not in `hitEnemyIds`).
Returns the updated projectile and the list of `damageEnemy(id, amount)`
calls made, in order; the on-hit/on-blast status-effect applications go to
exactly the ids of those calls. -/
def handleHit (projectile : ProjectileInstance) (target : EnemyInstance)
    (enemies : List EnemyInstance) : ProjectileInstance × List (String × ℚ) :=
  let primary :=
    if target.id ∈ projectile.hitEnemyIds then (projectile.hitEnemyIds, ([] : List (String × ℚ)))
    else (projectile.hitEnemyIds ++ [target.id], [(target.id, projectile.damage)])
  let afterBlast :=
    match projectile.blastRadius with
    | some blastRadius =>
        if 0 < blastRadius then
          let enemiesInBlast := enemies.filter fun (e : EnemyInstance) =>
            sqrtLe (getDistanceSq target.position e.position) blastRadius
          enemiesInBlast.foldl (handleHitBlastStep projectile.damage) primary
        else primary
    | none => primary
  (pierceChainUpdate { projectile with hitEnemyIds := afterBlast.1 } target.position enemies,
   afterBlast.2)

/-- A projectile's flight, for the purpose of damage accounting: the
sequence of `handleHit` calls the projectile resolver makes for it over its
lifetime (one per resolved collision, each against some target and enemy
snapshot), threading the projectile state and concatenating the damage
events. All projectile damage in `ProjectileManager.update` is dealt inside
`handleHit`. -/
def projectileFlight : ProjectileInstance → List (EnemyInstance × List EnemyInstance) →
    ProjectileInstance × List (String × ℚ)
  | p, [] => (p, [])
  | p, hit :: hits =>
      let r := handleHit p hit.1 hit.2
      let rest := projectileFlight r.1 hits
      (rest.1, r.2 ++ rest.2)

theorem handleHitBlastStep_fold_spec (damage : ℚ) :
    ∀ (l : List EnemyInstance) (hitIds : List String) (events : List (String × ℚ)),
      ∃ newIds : List String,
        (l.foldl (handleHitBlastStep damage) (hitIds, events)).1 = hitIds ++ newIds ∧
        (l.foldl (handleHitBlastStep damage) (hitIds, events)).2 =
          events ++ newIds.map (fun i => (i, damage)) ∧
        (hitIds.Nodup → (hitIds ++ newIds).Nodup) := by
  intro l
  induction l with
  | nil => intro hitIds events; exact ⟨[], by simp, by simp, fun h => by simpa using h⟩
  | cons e es ih =>
    intro hitIds events
    by_cases hmem : e.id ∈ hitIds
    · simpa [List.foldl_cons, handleHitBlastStep, hmem] using ih hitIds events
    · obtain ⟨newIds, h1, h2, h3⟩ := ih (hitIds ++ [e.id]) (events ++ [(e.id, damage)])
      refine ⟨e.id :: newIds, ?_, ?_, ?_⟩
      · simpa [List.foldl_cons, handleHitBlastStep, hmem, List.append_assoc] using h1
      · simpa [List.foldl_cons, handleHitBlastStep, hmem, List.append_assoc] using h2
      · intro hnd
        have : (hitIds ++ [e.id]).Nodup := by
          rw [List.nodup_append]
          exact ⟨hnd, List.nodup_singleton _, by simpa [List.disjoint_singleton] using hmem⟩
        simpa [List.append_assoc] using h3 this

theorem pierceChainUpdate_hitEnemyIds (p1 : ProjectileInstance) (targetPosition : Vector2D)
    (enemies : List EnemyInstance) :
    (pierceChainUpdate p1 targetPosition enemies).hitEnemyIds = p1.hitEnemyIds := by
  unfold pierceChainUpdate
  split
  · rfl
  · split
    · split <;> rfl
    · rfl

theorem handleHit_hitIds_spec (p : ProjectileInstance) (t : EnemyInstance)
    (es : List EnemyInstance) :
    (handleHit p t es).1.hitEnemyIds =
      p.hitEnemyIds ++ ((handleHit p t es).2.map Prod.fst) ∧
    (p.hitEnemyIds.Nodup → (handleHit p t es).1.hitEnemyIds.Nodup) := by
  unfold handleHit
  simp only [pierceChainUpdate_hitEnemyIds]
  have hprim : ∀ primary : List String × List (String × ℚ),
      primary.1 = p.hitEnemyIds ++ primary.2.map Prod.fst →
      (p.hitEnemyIds.Nodup → primary.1.Nodup) →
      ∀ afterBlast : List String × List (String × ℚ),
        (afterBlast =
          match p.blastRadius with
          | some blastRadius =>
              if 0 < blastRadius then
                (es.filter fun (e : EnemyInstance) =>
                  sqrtLe (getDistanceSq t.position e.position) blastRadius).foldl
                  (handleHitBlastStep p.damage) primary
              else primary
          | none => primary) →
        afterBlast.1 = p.hitEnemyIds ++ afterBlast.2.map Prod.fst ∧
          (p.hitEnemyIds.Nodup → afterBlast.1.Nodup) := by
    intro primary hp1 hpnd afterBlast hab
    cases hbr : p.blastRadius with
    | none =>
      rw [hbr] at hab
      exact hab ▸ ⟨hp1, hpnd⟩
    | some blastRadius =>
      rw [hbr] at hab
      dsimp only at hab
      by_cases hpos : 0 < blastRadius
      · rw [if_pos hpos] at hab
        obtain ⟨newIds, h1, h2, h3⟩ := handleHitBlastStep_fold_spec p.damage
          (es.filter fun (e : EnemyInstance) =>
            sqrtLe (getDistanceSq t.position e.position) blastRadius)
          primary.1 primary.2
        constructor
        · rw [hab, h1, h2, hp1]
          have hcomp : (Prod.fst ∘ fun i : String => (i, p.damage)) = id := rfl
          simp [List.append_assoc, hcomp]
        · intro hnd
          rw [hab, h1]
          have hnd1 : primary.1.Nodup := hpnd hnd
          have := h3 hnd1
          rcases primary with ⟨ids, evs⟩
          exact this
      · rw [if_neg hpos] at hab
        exact hab ▸ ⟨hp1, hpnd⟩
  by_cases hmem : t.id ∈ p.hitEnemyIds
  · simp only [hmem, if_true, ite_true]
    exact hprim (p.hitEnemyIds, []) (by simp) (fun h => h) _ rfl
  · simp only [hmem, if_false, ite_false]
    refine hprim (p.hitEnemyIds ++ [t.id], [(t.id, p.damage)]) (by simp) ?_ _ rfl
    intro hnd
    rw [List.nodup_append]
    exact ⟨hnd, List.nodup_singleton _, by simpa [List.disjoint_singleton] using hmem⟩

theorem findNewTarget_not_hit (fromPosition : Vector2D) (allEnemies : List EnemyInstance)
    (hitIds : List String) (range : ℚ) (e : EnemyInstance)
    (h : findNewTarget fromPosition allEnemies hitIds range = some e) : e.id ∉ hitIds := by
  unfold findNewTarget at h
  suffices hgen : ∀ (l : List EnemyInstance) (acc : Option EnemyInstance × ℚ),
      (∀ e', acc.1 = some e' → e'.id ∉ hitIds) →
      ∀ e', (l.foldl (fun (acc : Option EnemyInstance × ℚ) enemy =>
          if enemy.id ∈ hitIds then acc
          else
            let distanceSq := getDistanceSq fromPosition enemy.position
            if distanceSq < acc.2 then (some enemy, distanceSq) else acc) acc).1 = some e' →
        e'.id ∉ hitIds by
    exact hgen allEnemies (none, range * range) (by simp) e h
  intro l
  induction l with
  | nil => intro acc hacc e' h'; exact hacc e' h'
  | cons a as ih =>
    intro acc hacc e' h'
    simp only [List.foldl_cons] at h'
    by_cases hmem : a.id ∈ hitIds
    · rw [if_pos hmem] at h'
      exact ih acc hacc e' h'
    · rw [if_neg hmem] at h'
      by_cases hlt : getDistanceSq fromPosition a.position < acc.2
      · rw [if_pos hlt] at h'
        refine ih _ ?_ e' h'
        intro e'' he''
        simp only [Option.some.injEq] at he''
        exact he'' ▸ hmem
      · rw [if_neg hlt] at h'
        exact ih acc hacc e' h'

theorem projectileFlight_spec :
    ∀ (hits : List (EnemyInstance × List EnemyInstance)) (p : ProjectileInstance),
      p.hitEnemyIds.Nodup →
      (projectileFlight p hits).1.hitEnemyIds =
        p.hitEnemyIds ++ ((projectileFlight p hits).2.map Prod.fst) ∧
      (projectileFlight p hits).1.hitEnemyIds.Nodup := by
  intro hits
  induction hits with
  | nil => intro p hnd; exact ⟨by simp [projectileFlight], by simpa [projectileFlight] using hnd⟩
  | cons hit hits ih =>
    intro p hnd
    obtain ⟨hr1, hrnd⟩ := handleHit_hitIds_spec p hit.1 hit.2
    obtain ⟨hi1, hind⟩ := ih (handleHit p hit.1 hit.2).1 (hrnd hnd)
    constructor
    · show (projectileFlight (handleHit p hit.1 hit.2).1 hits).1.hitEnemyIds = _
      rw [hi1, hr1]
      simp [projectileFlight, List.append_assoc]
    · exact hind

/-- **C1** — Over a projectile's whole flight (every `handleHit` collision
it resolves, with arbitrary targets and enemy snapshots), starting from a
duplicate-free `hitEnemyIds` list: the list stays duplicate-free, the
damage events hit pairwise-distinct enemies none of which was already in
the initial list (so no enemy is damaged twice — neither as primary target
nor via blast splash), and chain/fizzle re-acquisition (`findNewTarget`)
only ever selects an enemy not in the supplied `hitEnemyIds`. -/
theorem projectile_no_double_damage (p : ProjectileInstance)
    (hnodup : p.hitEnemyIds.Nodup)
    (hits : List (EnemyInstance × List EnemyInstance)) :
    (projectileFlight p hits).1.hitEnemyIds =
      p.hitEnemyIds ++ ((projectileFlight p hits).2.map Prod.fst) ∧
    (projectileFlight p hits).1.hitEnemyIds.Nodup ∧
    ((projectileFlight p hits).2.map Prod.fst).Nodup ∧
    (∀ ev ∈ (projectileFlight p hits).2, ev.1 ∉ p.hitEnemyIds) ∧
    (∀ (pos : Vector2D) (enemies : List EnemyInstance) (hitIds : List String) (range : ℚ)
        (e : EnemyInstance), findNewTarget pos enemies hitIds range = some e → e.id ∉ hitIds) := by
  obtain ⟨h1, h2⟩ := projectileFlight_spec hits p hnodup
  have hnd := h2
  rw [h1] at hnd
  rw [List.nodup_append] at hnd
  obtain ⟨-, hevnd, hdisj⟩ := hnd
  refine ⟨h1, h2, hevnd, ?_, ?_⟩
  · intro ev hev hmem
    exact hdisj hmem (List.mem_map_of_mem Prod.fst hev)
  · exact fun pos enemies hitIds range e h => findNewTarget_not_hit pos enemies hitIds range e h

/-- A concrete projectile used by witnesses: fresh from
`spawnProjectile`, with an empty `hitEnemyIds`. -/
def sampleProjectile : ProjectileInstance :=
  { id := "p1"
    sourceTowerId := "t1"
    position := { x := 0, y := 0 }
    targetId := "e1"
    speed := 500
    damage := 12
    blastRadius := some 30
    pierce := some 1
    chains := some 1
    effectsToApply := []
    onBlastEffects := none
    hitEnemyIds := [] }

/-- Witness for `projectile_no_double_damage`: a two-collision flight of
`sampleProjectile`, both against `sampleEnemy`'s snapshot. -/
theorem projectile_no_double_damage_witness :
    ((projectileFlight sampleProjectile [(sampleEnemy, [sampleEnemy]), (sampleEnemy, [sampleEnemy])]).2.map
        Prod.fst).Nodup :=
  (projectile_no_double_damage sampleProjectile (by simp [sampleProjectile])
    [(sampleEnemy, [sampleEnemy]), (sampleEnemy, [sampleEnemy])]).2.2.1

/-! ## Session state and store actions (`state/gameStore.ts`) -/

/-- The payload of a tower's attack configuration
(`types/configs.d.ts`, `AttackConfig.data`). -/
structure AttackData where
  damage : Option ℚ
  range : Option ℚ
  fire_rate : Option ℚ
  pierce : Option ℤ
  chains : Option ℤ
  blast_radius : Option ℚ
  radius : Option ℚ
  duration : Option ℚ
  dps : Option ℚ
  effects : Option (List (String × StatusEffectValue))
  on_blast_effects : Option (List StatusEffectValue)
deriving Repr, DecidableEq

/-- A tower's attack configuration (`types/configs.d.ts`, `AttackConfig`):
a run-time tag (`standard_projectile`, `persistent_ground_aura`,
`persistent_attached_aura`) plus its data payload. -/
structure AttackConfig where
  type : String
  data : AttackData
deriving Repr, DecidableEq

/-- A tower type definition (`types/configs.d.ts`, `TowerTypeConfig`);
only the fields the verified operations read. -/
structure TowerTypeConfig where
  cost : ℚ
  sprite_key : String
  attack : Option AttackConfig
deriving Repr, DecidableEq

/-- A live tower (`types/game.ts`, `TowerInstance`). -/
structure TowerInstance where
  id : String
  config : TowerTypeConfig
  tilePosition : Vector2D
  cooldown : ℚ
  currentPersona : String
  appliedUpgradeIds : List String
  totalInvestment : ℚ
  currentDamage : ℚ
  currentRange : ℚ
  currentFireRate : ℚ
  currentPierce : Option ℤ
  currentChains : Option ℤ
deriving Repr, DecidableEq

/-- A live persistent ground aura (`types/game.ts`, `AuraInstance`). -/
structure AuraInstance where
  id : String
  sourceTowerId : String
  position : Vector2D
  radius : ℚ
  duration : ℚ
  timeRemaining : ℚ
  dps : ℚ
  effects : List (String × StatusEffectValue)
deriving Repr, DecidableEq

/-- Wave-director sub-state (`types/game.ts`, `WaveState`). -/
structure WaveState where
  waveInProgress : Bool
  timeToNextWave : ℚ
  spawnQueue : List String
  spawnCooldown : ℚ
deriving Repr, DecidableEq

/-- The camera pan/zoom state (`types/game.ts`, `CameraState`). -/
structure CameraState where
  offset : Vector2D
  zoom : ℚ
deriving Repr, DecidableEq

/-- The Zustand store's data fields (`state/gameStore.ts`, `GameState`).
The manager objects (`waveManager`, …) are stateless services and are
modelled as the functions below rather than as data. -/
structure GameState where
  appStatus : String
  gold : ℚ
  health : ℚ
  currentWave : ℤ
  waveState : WaveState
  enemies : List EnemyInstance
  towers : List TowerInstance
  projectiles : List ProjectileInstance
  auras : List AuraInstance
  selectedTowerForBuild : Option String
  selectedTowerInstanceId : Option String
  grid : Option Grid
  paths : Option (List (List Vector2D))
  levelStyle : Option String
  camera : CameraState
deriving Repr, DecidableEq

/-- `gameStore.damageEnemy`: subtract `amount` from the enemy's health;
at `≤ 0`, remove the enemy and award its bounty as gold; a missing enemy id
is a no-op. -/
def damageEnemy (state : GameState) (enemyId : String) (amount : ℚ) : GameState :=
  match state.enemies.find? (fun e => e.id == enemyId) with
  | none => state
  | some enemy =>
      let newHp := enemy.currentHp - amount
      if newHp ≤ 0 then
        { state with
          enemies := state.enemies.filter (fun e => e.id != enemyId),
          gold := state.gold + enemy.config.base_stats.bounty }
      else
        { state with
          enemies := state.enemies.map fun e =>
            if e.id == enemyId then { enemy with currentHp := newHp } else e }

/-- `gameStore.applyStatusEffect`: look the target up and run the
status-effect manager's `applyEffect` on it; a missing target is a no-op. -/
def applyStatusEffect (state : GameState) (targetId : String)
    (effect : StatusEffectValue) (sourceTowerId : String) : GameState :=
  match state.enemies.find? (fun e => e.id == targetId) with
  | none => state
  | some target =>
      let updated := applyEffect target effect sourceTowerId
      { state with
        enemies := state.enemies.map fun e => if e.id == targetId then updated else e }

/-! ## Aura ticker (`services/projectiles/AuraManager.ts`) -/

/-- `AuraManager.update` for a single tick: for each aura (in collection
order), decrement its remaining duration, delete it on expiry (the
expiring tick reaches `continue` before the damage loop), otherwise damage
every enemy of the start-of-tick snapshot within the radius by `dps * dt`
(when `dps > 0`) and apply each configured status effect to it. -/
def auraUpdate (state : GameState) (dt : ℚ) : GameState :=
  let enemyList := state.enemies
  let result := state.auras.foldl
    (fun (acc : GameState × List AuraInstance) aura =>
      let aura' := { aura with timeRemaining := aura.timeRemaining - dt }
      if aura'.timeRemaining ≤ 0 then (acc.1, acc.2)
      else
        let enemiesInRadius := enemyList.filter fun (enemy : EnemyInstance) =>
          sqrtLe (getDistanceSq aura.position enemy.position) aura.radius
        let st := enemiesInRadius.foldl
          (fun (st : GameState) (enemy : EnemyInstance) =>
            let st1 := if 0 < aura.dps then damageEnemy st enemy.id (aura.dps * dt) else st
            aura.effects.foldl
              (fun (st2 : GameState) (kv : String × StatusEffectValue) =>
                applyStatusEffect st2 enemy.id kv.2 aura.sourceTowerId)
              st1)
          acc.1
        (st, acc.2 ++ [aura']))
    (state, [])
  { result.1 with auras := result.2 }

theorem auraUpdate_nil (s : GameState) (hs : s.auras = []) (dt : ℚ) : auraUpdate s dt = s := by
  unfold auraUpdate
  rw [hs]
  show { s with auras := ([] : List AuraInstance) } = s
  rw [← hs]

theorem foldl_auraUpdate_nil (dts : List ℚ) :
    ∀ s : GameState, s.auras = [] → dts.foldl auraUpdate s = s := by
  induction dts with
  | nil => intro s _; rfl
  | cons d ds ih =>
    intro s hs
    rw [List.foldl_cons, auraUpdate_nil s hs d]
    exact ih s hs

theorem auraUpdate_expiring (s : GameState) (a : AuraInstance) (dt : ℚ)
    (hs : s.auras = [a]) (hexp : a.timeRemaining - dt ≤ 0) :
    auraUpdate s dt = { s with auras := [] } := by
  unfold auraUpdate
  rw [hs]
  simp only [List.foldl_cons, List.foldl_nil]
  rw [if_pos hexp]

theorem damageEnemy_single (s : GameState) (e : EnemyInstance) (amount : ℚ)
    (hse : s.enemies = [e]) (hsurv : 0 < e.currentHp - amount) :
    damageEnemy s e.id amount =
      { s with enemies := [{ e with currentHp := e.currentHp - amount }] } := by
  unfold damageEnemy
  rw [hse]
  simp only [List.find?_cons, beq_self_eq_true, List.map_cons, List.map_nil, if_true, ite_true]
  rw [if_neg (not_le.mpr hsurv)]

theorem auraUpdate_damaging (s : GameState) (a : AuraInstance) (e : EnemyInstance) (dt : ℚ)
    (hs : s.auras = [a]) (hse : s.enemies = [e])
    (hdps : 0 < a.dps) (heff : a.effects = [])
    (hin : sqrtLe (getDistanceSq a.position e.position) a.radius = true)
    (hrem : 0 < a.timeRemaining - dt)
    (hhp : 0 < e.currentHp - a.dps * dt) :
    auraUpdate s dt = { s with
      enemies := [{ e with currentHp := e.currentHp - a.dps * dt }],
      auras := [{ a with timeRemaining := a.timeRemaining - dt }] } := by
  unfold auraUpdate
  rw [hs, hse]
  simp only [List.foldl_cons, List.foldl_nil]
  rw [if_neg (not_le.mpr hrem), heff]
  simp only [List.filter_cons, hin, if_true, List.filter_nil, List.foldl_cons, List.foldl_nil]
  rw [if_pos hdps]
  rw [damageEnemy_single s e (a.dps * dt) hse hhp]
  rfl

/-- The total time an aura actually deals damage for, over a tick sequence:
a tick counts only if the aura's remaining duration is still positive
*after* that tick's decrement (`AuraManager.update` decrements, deletes on
`≤ 0`, and only then damages). -/
def damagedTime : ℚ → List ℚ → ℚ
  | _, [] => 0
  | rem, dt :: dts => if rem - dt ≤ 0 then 0 else dt + damagedTime (rem - dt) dts

theorem damagedTime_lt (dts : List ℚ) : ∀ rem : ℚ, 0 < rem → damagedTime rem dts < rem := by
  induction dts with
  | nil => intro rem h; simpa [damagedTime] using h
  | cons d ds ih =>
    intro rem h
    unfold damagedTime
    by_cases hexp : rem - d ≤ 0
    · simpa [hexp] using h
    · rw [if_neg hexp]
      have := ih (rem - d) (by linarith)
      linarith

theorem damagedTime_cons (rem dt : ℚ) (dts : List ℚ) :
    damagedTime rem (dt :: dts) =
      if rem - dt ≤ 0 then 0 else dt + damagedTime (rem - dt) dts := rfl

theorem aura_run (dts : List ℚ) :
    ∀ (s : GameState) (e : EnemyInstance) (a : AuraInstance),
      s.enemies = [e] → s.auras = [a] → 0 < a.dps → a.effects = [] →
      sqrtLe (getDistanceSq a.position e.position) a.radius = true →
      0 < a.timeRemaining → a.dps * a.timeRemaining < e.currentHp →
      a.timeRemaining ≤ dts.sum →
      dts.foldl auraUpdate s = { s with
        enemies := [{ e with
          currentHp := e.currentHp - a.dps * damagedTime a.timeRemaining dts }],
        auras := [] } := by
  induction dts with
  | nil =>
    intro s e a hse hsa hdps heff hin hrem hhp hcov
    simp only [List.sum_nil] at hcov
    linarith
  | cons d ds ih =>
    intro s e a hse hsa hdps heff hin hrem hhp hcov
    rw [List.foldl_cons]
    by_cases hexp : a.timeRemaining - d ≤ 0
    · rw [auraUpdate_expiring s a d hsa hexp]
      rw [foldl_auraUpdate_nil ds _ rfl]
      rw [damagedTime_cons, if_pos hexp, mul_zero, sub_zero]
      show _ = { s with enemies := [e], auras := [] }
      rw [← hse]
    · have hrem' : 0 < a.timeRemaining - d := by linarith
      have hexpand : a.dps * (a.timeRemaining - d) =
          a.dps * a.timeRemaining - a.dps * d := by ring
      have hhp' : 0 < e.currentHp - a.dps * d := by
        have := mul_pos hdps hrem'
        linarith
      rw [auraUpdate_damaging s a e d hsa hse hdps heff hin hrem' hhp']
      have hres := ih { s with
          enemies := [{ e with currentHp := e.currentHp - a.dps * d }],
          auras := [{ a with timeRemaining := a.timeRemaining - d }] }
        { e with currentHp := e.currentHp - a.dps * d }
        { a with timeRemaining := a.timeRemaining - d }
        rfl rfl hdps heff hin hrem'
        (by show a.dps * (a.timeRemaining - d) < e.currentHp - a.dps * d; linarith)
        (by simp only [List.sum_cons] at hcov; show a.timeRemaining - d ≤ ds.sum; linarith)
      refine hres.trans ?_
      rw [damagedTime_cons, if_neg hexp]
      have harith : e.currentHp - a.dps * d - a.dps * damagedTime (a.timeRemaining - d) ds =
          e.currentHp - a.dps * (d + damagedTime (a.timeRemaining - d) ds) := by ring
      dsimp only
      rw [harith]

/-- Scenario C's enemy: standing at the aura's center with ample health. -/
def auraScenarioEnemy : EnemyInstance :=
  { id := "e1"
    config := { base_stats := { hp := 1000, speed := 0, armor := 0, damage := 1,
                                bounty := 5, immunities := [] },
                min_level_difficulty := 0 }
    path := []
    position := { x := 0, y := 0 }
    currentHp := 1000
    pathIndex := 0
    effects := []
    currentSpeed := 0
    currentArmor := 0 }

/-- Scenario C's aura: `dps = 10`, radius `50`, duration `3`. -/
def auraScenarioAura : AuraInstance :=
  { id := "a1"
    sourceTowerId := "t1"
    position := { x := 0, y := 0 }
    radius := 50
    duration := 3
    timeRemaining := 3
    dps := 10
    effects := [] }

/-- Scenario C's session: exactly that enemy and that aura live. -/
def auraScenarioState : GameState :=
  { appStatus := "in-game"
    gold := 200
    health := 25
    currentWave := 1
    waveState := { waveInProgress := true, timeToNextWave := 0, spawnQueue := [],
                   spawnCooldown := 0 }
    enemies := [auraScenarioEnemy]
    towers := []
    projectiles := []
    auras := [auraScenarioAura]
    selectedTowerForBuild := none
    selectedTowerInstanceId := none
    grid := none
    paths := none
    levelStyle := none
    camera := { offset := { x := 0, y := 0 }, zoom := 1 } }

/-- **C5 counterexample** — ticking Scenario C (aura `dps = 10`, radius 50,
duration 3; enemy at the center the whole time) with three 1-second steps
leaves the enemy at 980 hp: the total health loss is 20, not the claimed
30, because `AuraManager.update` decrements the duration first and the
expiring tick deletes the aura before dealing its damage. -/
theorem aura_scenario_dps_counterexample :
    (([1, 1, 1] : List ℚ).foldl auraUpdate auraScenarioState).enemies.map
        EnemyInstance.currentHp = [980] ∧
    (([1, 1, 1] : List ℚ).foldl auraUpdate auraScenarioState).auras = [] ∧
    (980 : ℚ) ≠ 1000 - 30 := by
  have hin : sqrtLe (getDistanceSq auraScenarioAura.position auraScenarioEnemy.position)
      auraScenarioAura.radius = true :=
    decide_eq_true (by norm_num [auraScenarioAura, auraScenarioEnemy, getDistanceSq])
  have hrun := aura_run [1, 1, 1] auraScenarioState auraScenarioEnemy auraScenarioAura
    rfl rfl (by norm_num [auraScenarioAura]) rfl hin
    (by norm_num [auraScenarioAura])
    (by norm_num [auraScenarioAura, auraScenarioEnemy])
    (by norm_num [auraScenarioAura])
  rw [hrun]
  refine ⟨?_, rfl, by norm_num⟩
  simp only [List.map_cons, List.map_nil]
  norm_num [auraScenarioEnemy, auraScenarioAura, damagedTime]

/-- **C5 (amended)** — For an aura with `dps = 10` and duration 3 and an
enemy that stays inside its radius for the whole lifetime (no other damage
sources, enough health to survive), ticking until the cumulative time
reaches the duration reduces the enemy's health by exactly
`10 × damagedTime 3 dts` — the damage-bearing time, which excludes the tick
on which the aura expires and is therefore strictly less than 30 — and the
aura is deleted from the collection on the expiring tick and stays absent
at every later time. -/
theorem aura_scenario_amended (s : GameState) (e : EnemyInstance) (a : AuraInstance)
    (dts : List ℚ)
    (hse : s.enemies = [e]) (hsa : s.auras = [a])
    (hdps : a.dps = 10) (hrem : a.timeRemaining = 3) (heff : a.effects = [])
    (hin : sqrtLe (getDistanceSq a.position e.position) a.radius = true)
    (hhp : 30 < e.currentHp) (hcov : 3 ≤ dts.sum) :
    (dts.foldl auraUpdate s).auras = [] ∧
    (dts.foldl auraUpdate s).enemies =
      [{ e with currentHp := e.currentHp - 10 * damagedTime 3 dts }] ∧
    damagedTime 3 dts < 3 ∧
    ∀ dt', auraUpdate (dts.foldl auraUpdate s) dt' = dts.foldl auraUpdate s := by
  have hrun := aura_run dts s e a hse hsa (by rw [hdps]; norm_num) heff hin
    (by rw [hrem]; norm_num)
    (by rw [hdps, hrem]; linarith)
    (by rw [hrem]; exact hcov)
  rw [hrun]
  rw [hdps, hrem] at hrun
  refine ⟨rfl, by rw [hdps, hrem], damagedTime_lt dts 3 (by norm_num), ?_⟩
  intro dt'
  exact auraUpdate_nil _ rfl dt'

/-- Witness for `aura_scenario_amended`: the concrete Scenario C state with
three 1-second ticks; the loss is `10 × damagedTime 3 [1,1,1] = 20`. -/
theorem aura_scenario_amended_witness :
    (([1, 1, 1] : List ℚ).foldl auraUpdate auraScenarioState).auras = [] ∧
    (([1, 1, 1] : List ℚ).foldl auraUpdate auraScenarioState).enemies =
      [{ auraScenarioEnemy with
         currentHp := auraScenarioEnemy.currentHp - 10 * damagedTime 3 [1, 1, 1] }] ∧
    damagedTime 3 [1, 1, 1] < 3 ∧
    ∀ dt', auraUpdate (([1, 1, 1] : List ℚ).foldl auraUpdate auraScenarioState) dt' =
      ([1, 1, 1] : List ℚ).foldl auraUpdate auraScenarioState :=
  aura_scenario_amended auraScenarioState auraScenarioEnemy auraScenarioAura [1, 1, 1]
    rfl rfl rfl rfl rfl
    (decide_eq_true (by norm_num [auraScenarioAura, auraScenarioEnemy, getDistanceSq]))
    (by norm_num [auraScenarioEnemy]) (by norm_num)

/-! ## Static configuration (`types/configs.d.ts`, `ConfigService`) -/

/-- One effect of a tower upgrade (`types/configs.d.ts`, `UpgradeEffect`).
The `add_blast_effect` variant's payload is a status-effect object that
`UpgradeService` only logs, so only the numeric `value` is modelled. -/
structure UpgradeEffect where
  type : String
  value : ℚ
deriving Repr, DecidableEq

/-- One purchasable tower upgrade (`types/configs.d.ts`, `UpgradeConfig`). -/
structure UpgradeConfig where
  id : String
  cost : ℚ
  effects : List UpgradeEffect
deriving Repr, DecidableEq

/-- One upgrade path of a tower's upgrade file. -/
structure UpgradePathConfig where
  upgrades : List UpgradeConfig
deriving Repr, DecidableEq

/-- A tower's upgrade file (`types/configs.d.ts`, `TowerUpgradeFile`). -/
structure TowerUpgradeFile where
  path_a : UpgradePathConfig
  path_b : UpgradePathConfig
deriving Repr, DecidableEq

/-- Global game settings (`types/configs.d.ts`, `GameSettings`). -/
structure GameSettings where
  tile_size : ℚ
  difficulty : ℚ
deriving Repr, DecidableEq

/-- The wave-scaling coefficients (`types/configs.d.ts`,
`WaveScalingConfig`). -/
structure SpawnCooldownConfig where
  minimum_seconds : ℚ
  base_seconds : ℚ
  reduction_per_wave : ℚ
  reduction_per_level_difficulty : ℚ
deriving Repr, DecidableEq

structure EnemyCountConfig where
  base : ℚ
  per_wave : ℚ
  per_level_difficulty : ℚ
deriving Repr, DecidableEq

structure WaveScalingConfig where
  spawn_cooldown : SpawnCooldownConfig
  enemy_count : EnemyCountConfig
deriving Repr, DecidableEq

/-- One difficulty table row (`types/configs.d.ts`,
`DifficultyScalingConfig` entries). -/
structure DifficultyConfig where
  time_between_waves : ℚ
deriving Repr, DecidableEq

/-- Level-generation parameters of a level style (`types/configs.d.ts`,
`LevelGenerationParams`): grid size, per-shape route counts and
obstacle-feature count ranges. -/
structure FeatureRange where
  min : ℤ
  max : ℤ
deriving Repr, DecidableEq

structure LevelGenerationParams where
  grid_width : ℤ
  grid_height : ℤ
  paths_config : List (String × ℕ)
  features : List (String × FeatureRange)
deriving Repr, DecidableEq

structure LevelStyleConfig where
  generation_params : LevelGenerationParams
deriving Repr, DecidableEq

/-- Key-value lookup in a JSON-object table (`table[key]`). -/
def lookupTable {α : Type} (table : List (String × α)) (key : String) : Option α :=
  (table.find? (fun kv => kv.1 == key)).map (·.2)

/-- The loaded configuration bundle (`ConfigService.configs`), restricted
to the tables the verified operations read. The difficulty-scaling table's
JSON keys are numeric strings `String(difficulty)`; it is modelled keyed by
the numeric difficulty itself. -/
structure AllConfigs where
  towerTypes : List (String × TowerTypeConfig)
  towerUpgrades : List (String × TowerUpgradeFile)
  enemyTypes : List (String × EnemyTypeConfig)
  gameSettings : GameSettings
  waveScaling : WaveScalingConfig
  difficultyScaling : List (ℚ × DifficultyConfig)
  levelStyles : List (String × LevelStyleConfig)
deriving Repr, DecidableEq

/-! ## Player commands (`state/gameStore.ts`, `components/game/GameCanvas.tsx`) -/

/-- `gameStore.placeTower`: build the new tower instance from the type
configuration (derived stats seeded from the attack data, `?? 0` defaults)
and commit it, deducting the full cost from gold. The fresh uuid is passed
in as `newId`. -/
def placeTower (state : GameState) (config : TowerTypeConfig) (tile : Vector2D)
    (newId : String) : GameState :=
  let newTower : TowerInstance :=
    { id := newId
      config := config
      tilePosition := tile
      cooldown := 0
      currentPersona := "EXECUTIONER"
      appliedUpgradeIds := []
      totalInvestment := config.cost
      currentDamage := (config.attack.bind (·.data.damage)).getD 0
      currentRange := (config.attack.bind (·.data.range)).getD 0
      currentFireRate := (config.attack.bind (·.data.fire_rate)).getD 0
      currentPierce := config.attack.bind (·.data.pierce)
      currentChains := config.attack.bind (·.data.chains) }
  { state with
    towers := state.towers ++ [newTower],
    gold := state.gold - config.cost }

/-- `gameStore.setSelectedTowerForBuild`: toggle off when re-selecting the
same id, otherwise select it and clear the instance selection. -/
def setSelectedTowerForBuild (state : GameState) (towerId : Option String) : GameState :=
  if state.selectedTowerForBuild == towerId then
    { state with selectedTowerForBuild := none }
  else
    { state with selectedTowerForBuild := towerId, selectedTowerInstanceId := none }

/-- `GameCanvas.handleClick`: place-tower command entry point. Validates,
in order: a mouse position exists, a tower type is selected and a grid is
live, the type is known and affordable, and the clicked tile exists and has
tile type `BUILDABLE`; each failing check silently returns with no state
change. On success it places the tower (deducting the cost) and clears the
build selection. Tile occupancy by an existing tower is not checked
anywhere on this path, and placement does not change the tile's type. -/
def handleClick (state : GameState) (configs : AllConfigs)
    (mousePosition : Option Vector2D) (newId : String) : GameState :=
  match mousePosition with
  | none => state
  | some mp =>
    match state.selectedTowerForBuild, state.grid with
    | none, _ => state
    | _, none => state
    | some selectedForBuild, some grid =>
      match lookupTable configs.towerTypes selectedForBuild with
      | none => state
      | some towerConfig =>
        if state.gold < towerConfig.cost then state
        else
          let TILE_SIZE := configs.gameSettings.tile_size
          let tileX : ℤ := ⌊mp.x / TILE_SIZE⌋
          let tileY : ℤ := ⌊mp.y / TILE_SIZE⌋
          match grid.getTile tileX tileY with
          | none => state
          | some targetTile =>
            if targetTile.tileType != "BUILDABLE" then state
            else
              setSelectedTowerForBuild
                (placeTower state towerConfig { x := (tileX : ℚ), y := (tileY : ℚ) } newId)
                none

/-- The tower type used by the placement scenarios. -/
def archerConfig : TowerTypeConfig :=
  { cost := 10, sprite_key := "towers/archer.png", attack := none }

/-- A tower already standing on tile `(0, 0)`. -/
def occupiedTower : TowerInstance :=
  { id := "t1", config := archerConfig, tilePosition := { x := 0, y := 0 },
    cooldown := 0, currentPersona := "EXECUTIONER", appliedUpgradeIds := [],
    totalInvestment := 10, currentDamage := 0, currentRange := 0,
    currentFireRate := 0, currentPierce := none, currentChains := none }

/-- A session where tile `(0, 0)` is `BUILDABLE` and already holds
`occupiedTower`, with the archer type selected for building. -/
def occupiedState : GameState :=
  { appStatus := "in-game"
    gold := 100
    health := 25
    currentWave := 1
    waveState := { waveInProgress := false, timeToNextWave := 10, spawnQueue := [],
                   spawnCooldown := 0 }
    enemies := []
    towers := [occupiedTower]
    projectiles := []
    auras := []
    selectedTowerForBuild := some "archer"
    selectedTowerInstanceId := none
    grid := some gridTwoByOne
    paths := none
    levelStyle := none
    camera := { offset := { x := 0, y := 0 }, zoom := 1 } }

/-- Zeroed wave-scaling coefficients for scenarios that never spawn. -/
def zeroWaveScaling : WaveScalingConfig :=
  { spawn_cooldown :=
      { minimum_seconds := 0, base_seconds := 0, reduction_per_wave := 0,
        reduction_per_level_difficulty := 0 }
    enemy_count := { base := 0, per_wave := 0, per_level_difficulty := 0 } }

/-- The configuration bundle for the placement scenarios. -/
def placeConfigs : AllConfigs :=
  { towerTypes := [("archer", archerConfig)]
    towerUpgrades := []
    enemyTypes := []
    gameSettings := { tile_size := 32, difficulty := 0 }
    waveScaling := zeroWaveScaling
    difficultyScaling := []
    levelStyles := [] }

/-- **C7 counterexample** — A click on a tile that already holds a tower is
*not* rejected: with `occupiedTower` standing on the clicked `BUILDABLE`
tile `(0, 0)`, the place-tower command still goes through, adding a second
tower and deducting the cost, because `handleClick` checks only gold and
tile type, never occupancy (and placement does not change the tile type). -/
theorem place_tower_occupancy_counterexample :
    (∃ t ∈ occupiedState.towers, t.tilePosition = { x := 0, y := 0 }) ∧
    (handleClick occupiedState placeConfigs (some { x := 0, y := 0 }) "t2").towers.length = 2 ∧
    (handleClick occupiedState placeConfigs (some { x := 0, y := 0 }) "t2").gold =
      occupiedState.gold - 10 ∧
    handleClick occupiedState placeConfigs (some { x := 0, y := 0 }) "t2" ≠ occupiedState := by
  have hfloor : (⌊(0 : ℚ) / 32⌋ : ℤ) = 0 := by norm_num
  have hget : gridTwoByOne.getTile 0 0 =
      some { x := 0, y := 0, tileType := "BUILDABLE" } := rfl
  have hlt : ¬ (100 : ℚ) < 10 := by norm_num
  have hlen : (handleClick occupiedState placeConfigs
      (some { x := 0, y := 0 }) "t2").towers.length = 2 := by
    simp [handleClick, occupiedState, placeConfigs, archerConfig, lookupTable, hfloor, hget,
      placeTower, setSelectedTowerForBuild, occupiedTower, hlt]
  refine ⟨⟨occupiedTower, by simp [occupiedState], rfl⟩, hlen, ?_, ?_⟩
  · simp [handleClick, occupiedState, placeConfigs, archerConfig, lookupTable, hfloor, hget,
      placeTower, setSelectedTowerForBuild, occupiedTower, hlt]
  · intro heq
    rw [heq] at hlen
    simp [occupiedState] at hlen

/-- **C7 (amended)** — A place-tower command is validated against cost and
tile buildability only (occupancy by an existing tower is not checked, and
placement does not change the tile's type): with a type selected and a grid
live, insufficient gold, a missing tile, or a non-`BUILDABLE` tile silently
rejects the command with no state change; otherwise a tower of the selected
type is appended on the clicked tile and exactly its cost is deducted. -/
theorem place_tower_validation (state : GameState) (configs : AllConfigs) (mp : Vector2D)
    (newId : String) (selectedForBuild : String) (grid : Grid)
    (towerConfig : TowerTypeConfig)
    (hsel : state.selectedTowerForBuild = some selectedForBuild)
    (hgrid : state.grid = some grid)
    (hcfg : lookupTable configs.towerTypes selectedForBuild = some towerConfig) :
    (state.gold < towerConfig.cost → handleClick state configs (some mp) newId = state) ∧
    ((grid.getTile ⌊mp.x / configs.gameSettings.tile_size⌋
        ⌊mp.y / configs.gameSettings.tile_size⌋ = none ∨
      ∃ t, grid.getTile ⌊mp.x / configs.gameSettings.tile_size⌋
          ⌊mp.y / configs.gameSettings.tile_size⌋ = some t ∧ t.tileType ≠ "BUILDABLE") →
      handleClick state configs (some mp) newId = state) ∧
    (¬ state.gold < towerConfig.cost →
      ∀ t, grid.getTile ⌊mp.x / configs.gameSettings.tile_size⌋
          ⌊mp.y / configs.gameSettings.tile_size⌋ = some t →
        t.tileType = "BUILDABLE" →
        ∃ nt : TowerInstance,
          (handleClick state configs (some mp) newId).towers = state.towers ++ [nt] ∧
          nt.config = towerConfig ∧
          nt.tilePosition = { x := (⌊mp.x / configs.gameSettings.tile_size⌋ : ℚ),
                              y := (⌊mp.y / configs.gameSettings.tile_size⌋ : ℚ) } ∧
          (handleClick state configs (some mp) newId).gold =
            state.gold - towerConfig.cost ∧
          (handleClick state configs (some mp) newId).enemies = state.enemies ∧
          (handleClick state configs (some mp) newId).health = state.health ∧
          (handleClick state configs (some mp) newId).grid = state.grid) := by
  unfold handleClick
  rw [hsel, hgrid]
  dsimp only
  rw [hcfg]
  refine ⟨?_, ?_, ?_⟩
  · intro hpoor
    simp only [hpoor, if_true, ite_true]
  · intro htile
    by_cases hpoor : state.gold < towerConfig.cost
    · simp only [hpoor, if_true, ite_true]
    · simp only [hpoor, if_false, ite_false]
      rcases htile with hnone | ⟨t, hsome, hnb⟩
      · rw [hnone]
      · rw [hsome]
        dsimp only
        have : (t.tileType != "BUILDABLE") = true := by
          simpa using hnb
        rw [if_pos this]
  · intro hrich t hsome hb
    simp only [hrich, if_false, ite_false]
    rw [hsome]
    dsimp only
    have : (t.tileType != "BUILDABLE") = false := by
      simp [hb]
    rw [this, if_neg (by simp)]
    refine Exists.intro { id := newId, config := towerConfig, tilePosition := { x := (⌊mp.x / configs.gameSettings.tile_size⌋ : ℚ), y := (⌊mp.y / configs.gameSettings.tile_size⌋ : ℚ) }, cooldown := 0, currentPersona := "EXECUTIONER", appliedUpgradeIds := [], totalInvestment := towerConfig.cost, currentDamage := (towerConfig.attack.bind (·.data.damage)).getD 0, currentRange := (towerConfig.attack.bind (·.data.range)).getD 0, currentFireRate := (towerConfig.attack.bind (·.data.fire_rate)).getD 0, currentPierce := towerConfig.attack.bind (·.data.pierce), currentChains := towerConfig.attack.bind (·.data.chains) } ⟨?_, rfl, rfl, ?_, ?_, ?_, ?_⟩ <;>
      (simp only [setSelectedTowerForBuild, placeTower]; split <;> (first | rfl | exact hgrid))

/-- Witness for `place_tower_validation` on the concrete occupied-tile
session (where the placement indeed goes through). -/
theorem place_tower_validation_witness :
    ¬ occupiedState.gold < archerConfig.cost ∧
    ∃ nt : TowerInstance,
      (handleClick occupiedState placeConfigs (some { x := 0, y := 0 }) "t2").towers =
        occupiedState.towers ++ [nt] ∧ nt.config = archerConfig := by
  have h := place_tower_validation occupiedState placeConfigs { x := 0, y := 0 } "t2"
    "archer" gridTwoByOne archerConfig rfl rfl rfl
  have hlt : ¬ occupiedState.gold < archerConfig.cost := by
    norm_num [occupiedState, archerConfig]
  have hfloor : (⌊(0 : ℚ) / 32⌋ : ℤ) = 0 := by norm_num
  have hget : gridTwoByOne.getTile ⌊(0 : ℚ) / placeConfigs.gameSettings.tile_size⌋
      ⌊(0 : ℚ) / placeConfigs.gameSettings.tile_size⌋ =
      some { x := 0, y := 0, tileType := "BUILDABLE" } := by
    have : placeConfigs.gameSettings.tile_size = 32 := rfl
    rw [this, hfloor]
    rfl
  obtain ⟨nt, h1, h2, -⟩ := h.2.2 hlt _ hget rfl
  exact ⟨hlt, nt, h1, h2⟩

/-! ## Upgrades (`services/upgrades/UpgradeService.ts`,
`gameStore.upgradeTower`) -/

/-- `String.prototype.split(sep)` for a one-character separator, at the
character level (kernel-computable). -/
def splitOnCharAux (sep : Char) : List Char → List Char → List (List Char)
  | [], acc => [acc.reverse]
  | c :: cs, acc =>
      if c = sep then acc.reverse :: splitOnCharAux sep cs []
      else splitOnCharAux sep cs (c :: acc)

def splitOnChar (s : String) (sep : Char) : List String :=
  (splitOnCharAux sep s.toList []).map List.asString

/-- `String.prototype.replace(pat, repl)` for a plain-string pattern:
replace the first occurrence only, at the character level. -/
def replaceFirstChars (pat repl : List Char) : List Char → List Char
  | [] => []
  | c :: cs =>
      if pat.isPrefixOf (c :: cs) then repl ++ (c :: cs).drop pat.length
      else c :: replaceFirstChars pat repl cs

def jsReplaceFirst (s pat repl : String) : String :=
  (replaceFirstChars pat.toList repl.toList s.toList).asString

/-- `UpgradeService.applyEffect`: add damage, add range or multiply fire
rate; `add_blast_effect` and unknown types only log. -/
def applyUpgradeEffect (tower : TowerInstance) (effect : UpgradeEffect) : TowerInstance :=
  if effect.type == "add_damage" then
    { tower with currentDamage := tower.currentDamage + effect.value }
  else if effect.type == "add_range" then
    { tower with currentRange := tower.currentRange + effect.value }
  else if effect.type == "multiply_fire_rate" then
    { tower with currentFireRate := tower.currentFireRate * effect.value }
  else tower

/-- `UpgradeService.applyUpgrade`: deep-copy the tower and apply every
effect of the upgrade in order. -/
def applyUpgrade (tower : TowerInstance) (upgrade : UpgradeConfig) : TowerInstance :=
  upgrade.effects.foldl applyUpgradeEffect tower

/-- `gameStore.upgradeTower`: look the tower up (no-op when missing),
derive its upgrade-file key from `sprite_key.split('/')[1]` minus `.png`
(`none` models the `TypeError` thrown when the sprite key has no `/`),
then reject — returning the state unchanged —
when the upgrade file or the upgrade id is unknown, gold is short, or the
id is already in `appliedUpgradeIds`; otherwise apply the upgrade, append
the id, add the cost to the investment and deduct it from gold. -/
def upgradeTower (state : GameState) (configs : AllConfigs)
    (towerId upgradeId : String) : Option GameState :=
  match state.towers.find? (fun t => t.id == towerId) with
  | none => some state
  | some towerToUpgrade =>
    match (splitOnChar towerToUpgrade.config.sprite_key '/')[1]? with
    | none => none
    | some keyPart =>
      let towerTypeKey := jsReplaceFirst keyPart ".png" ""
      match lookupTable configs.towerUpgrades towerTypeKey with
      | none => some state
      | some upgradeFile =>
        match (upgradeFile.path_a.upgrades ++ upgradeFile.path_b.upgrades).find?
            (fun u => u.id == upgradeId) with
        | none => some state
        | some upgradeConfig =>
          if state.gold < upgradeConfig.cost ∨ upgradeId ∈ towerToUpgrade.appliedUpgradeIds then
            some state
          else
            let upgraded0 := applyUpgrade towerToUpgrade upgradeConfig
            let upgradedTower := { upgraded0 with
              appliedUpgradeIds := upgraded0.appliedUpgradeIds ++ [upgradeId],
              totalInvestment := upgraded0.totalInvestment + upgradeConfig.cost }
            some { state with
              gold := state.gold - upgradeConfig.cost,
              towers := state.towers.map fun t =>
                if t.id == towerId then upgradedTower else t }

/-- **C8** — Purchasing an upgrade whose id is already in the tower's
`appliedUpgradeIds`, or whose cost exceeds the current gold, or whose id is
unknown (no upgrade file for the tower, or no upgrade with that id in it)
is rejected with no change at all to the session state: re-applying the
same upgrade id a second time is a no-op. -/
theorem upgrade_duplicate_rejected (state : GameState) (configs : AllConfigs)
    (towerId upgradeId : String) (tower : TowerInstance) (keyPart : String)
    (hfind : state.towers.find? (fun t => t.id == towerId) = some tower)
    (hkey : (splitOnChar tower.config.sprite_key '/')[1]? = some keyPart)
    (hrej : upgradeId ∈ tower.appliedUpgradeIds ∨
      lookupTable configs.towerUpgrades (jsReplaceFirst keyPart ".png" "") = none ∨
      (∃ f, lookupTable configs.towerUpgrades (jsReplaceFirst keyPart ".png" "") = some f ∧
        (f.path_a.upgrades ++ f.path_b.upgrades).find? (fun u => u.id == upgradeId) = none) ∨
      (∃ f u, lookupTable configs.towerUpgrades (jsReplaceFirst keyPart ".png" "") = some f ∧
        (f.path_a.upgrades ++ f.path_b.upgrades).find? (fun u => u.id == upgradeId) = some u ∧
        state.gold < u.cost)) :
    upgradeTower state configs towerId upgradeId = some state := by
  unfold upgradeTower
  rw [hfind]
  dsimp only
  rw [hkey]
  dsimp only
  rcases hrej with hdup | hnofile | ⟨f, hf, hnoupg⟩ | ⟨f, u, hf, hu, hpoor⟩
  · cases hfile : lookupTable configs.towerUpgrades (jsReplaceFirst keyPart ".png" "") with
    | none => rfl
    | some f =>
      dsimp only
      cases hupg : (f.path_a.upgrades ++ f.path_b.upgrades).find? (fun u => u.id == upgradeId) with
      | none => rfl
      | some u =>
        dsimp only
        rw [if_pos (Or.inr hdup)]
  · rw [hnofile]
  · rw [hf]
    dsimp only
    rw [hnoupg]
  · rw [hf]
    dsimp only
    rw [hu]
    dsimp only
    rw [if_pos (Or.inl hpoor)]

/-- A tower with one upgrade already purchased, for the C8 witness. -/
def upgradedArcher : TowerInstance :=
  { occupiedTower with id := "t7", appliedUpgradeIds := ["sharper_arrows"] }

/-- Witness for `upgrade_duplicate_rejected`: re-buying `sharper_arrows`
for `upgradedArcher` is a no-op. -/
theorem upgrade_duplicate_rejected_witness :
    upgradeTower { occupiedState with towers := [upgradedArcher] } placeConfigs
      "t7" "sharper_arrows" = some { occupiedState with towers := [upgradedArcher] } :=
  upgrade_duplicate_rejected { occupiedState with towers := [upgradedArcher] } placeConfigs
    "t7" "sharper_arrows" upgradedArcher "archer.png"
    (by decide)
    (by decide)
    (Or.inl (by decide))

/-! ## Wave director (`services/waves/WaveManager.ts`) -/

/-- `gameStore.spawnEnemy`: create the enemy at the first point of its
route (call sites always pass a non-empty route; the default is
unreachable) with base stats, bound to that route, and add it to the
collection. The fresh uuid is passed in as `newId`. -/
def spawnEnemy (state : GameState) (config : EnemyTypeConfig) (path : List Vector2D)
    (newId : String) : GameState :=
  let newEnemy : EnemyInstance :=
    { id := newId
      config := config
      path := path
      position := path.headD { x := 0, y := 0 }
      currentHp := config.base_stats.hp
      pathIndex := 0
      effects := []
      currentSpeed := config.base_stats.speed
      currentArmor := config.base_stats.armor }
  { state with enemies := state.enemies ++ [newEnemy] }

/-- `WaveManager.handleSpawning` (invoked by `WaveManager.update` exactly
while `waveState.waveInProgress`): with an empty spawn queue, wait for all
live enemies to clear and then re-enter countdown with the configured
inter-wave delay (`|| 15` when the difficulty row is missing or the delay
is falsy); otherwise decrement the per-spawn cooldown by `dt`, and once it
reaches zero pop the next queued enemy type, spawn it (when its type is
known) on a uniformly chosen route `paths[⌊rand·|paths|⌋]`, and reset the
cooldown to
`max(minimum_seconds, base_seconds − reduction_per_wave·wave −
reduction_per_level_difficulty·difficulty)`. -/
def handleSpawning (state : GameState) (configs : AllConfigs)
    (paths : List (List Vector2D)) (rand : ℚ) (newId : String) (dt : ℚ) : GameState :=
  let levelDifficulty := configs.gameSettings.difficulty
  match state.waveState.spawnQueue with
  | [] =>
      if state.enemies.isEmpty then
        let timeBetweenWaves :=
          match (configs.difficultyScaling.find? (fun kv => kv.1 == levelDifficulty)).map
              (·.2.time_between_waves) with
          | none => 15
          | some t => if t == 0 then 15 else t
        { state with waveState := { state.waveState with
            waveInProgress := false,
            timeToNextWave := timeBetweenWaves } }
      else state
  | enemyIdToSpawn :: _ =>
      let newSpawnCooldown := state.waveState.spawnCooldown - dt
      if newSpawnCooldown ≤ 0 then
        let state1 :=
          match lookupTable configs.enemyTypes enemyIdToSpawn with
          | some enemyConfig =>
              let chosenPath := paths.getD (⌊rand * (paths.length : ℚ)⌋).toNat []
              spawnEnemy state enemyConfig chosenPath newId
          | none => state
        let calculatedSpawnCooldown :=
          max configs.waveScaling.spawn_cooldown.minimum_seconds
            (configs.waveScaling.spawn_cooldown.base_seconds -
              configs.waveScaling.spawn_cooldown.reduction_per_wave * (state.currentWave : ℚ) -
              configs.waveScaling.spawn_cooldown.reduction_per_level_difficulty *
                levelDifficulty)
        { state1 with waveState := { state1.waveState with
            spawnQueue := state1.waveState.spawnQueue.drop 1,
            spawnCooldown := calculatedSpawnCooldown } }
      else
        { state with waveState := { state.waveState with
            spawnCooldown := newSpawnCooldown } }

/-- **C9** — In the spawning state, when the per-spawn cooldown reaches
zero (`spawnCooldown − dt ≤ 0`) with a non-empty queue whose head is a
known enemy type: the head is popped, exactly one enemy of that type is
created on the route `paths[⌊rand·|paths|⌋]` (a uniformly random choice of
an available route, in bounds for `rand ∈ [0, 1)` and non-empty `paths`),
and the cooldown is reset to exactly
`max(minimum_seconds, base_seconds − reduction_per_wave·currentWave −
reduction_per_level_difficulty·levelDifficulty)`. -/
theorem wave_spawn_cooldown_formula (state : GameState) (configs : AllConfigs)
    (paths : List (List Vector2D)) (rand : ℚ) (newId : String) (dt : ℚ)
    (eid : String) (rest : List String) (cfg : EnemyTypeConfig)
    (hq : state.waveState.spawnQueue = eid :: rest)
    (hcd : state.waveState.spawnCooldown - dt ≤ 0)
    (hcfg : lookupTable configs.enemyTypes eid = some cfg)
    (hr0 : 0 ≤ rand) (hr1 : rand < 1) (hpaths : paths ≠ []) :
    (handleSpawning state configs paths rand newId dt).waveState.spawnQueue = rest ∧
    (handleSpawning state configs paths rand newId dt).waveState.spawnCooldown =
      max configs.waveScaling.spawn_cooldown.minimum_seconds
        (configs.waveScaling.spawn_cooldown.base_seconds -
          configs.waveScaling.spawn_cooldown.reduction_per_wave * (state.currentWave : ℚ) -
          configs.waveScaling.spawn_cooldown.reduction_per_level_difficulty *
            configs.gameSettings.difficulty) ∧
    (⌊rand * (paths.length : ℚ)⌋).toNat < paths.length ∧
    (handleSpawning state configs paths rand newId dt).enemies =
      state.enemies ++
        [{ id := newId, config := cfg,
           path := paths.getD (⌊rand * (paths.length : ℚ)⌋).toNat [],
           position := (paths.getD (⌊rand * (paths.length : ℚ)⌋).toNat []).headD
             { x := 0, y := 0 },
           currentHp := cfg.base_stats.hp, pathIndex := 0, effects := [],
           currentSpeed := cfg.base_stats.speed,
           currentArmor := cfg.base_stats.armor }] := by
  have hlen : 0 < paths.length := List.length_pos.mpr hpaths
  have hidx : (⌊rand * (paths.length : ℚ)⌋).toNat < paths.length := by
    have h1 : rand * (paths.length : ℚ) < (paths.length : ℚ) := by
      have h0 : (0 : ℚ) < (paths.length : ℚ) := by exact_mod_cast hlen
      nlinarith [hr0, h0]
    have h2 : ⌊rand * (paths.length : ℚ)⌋ < (paths.length : ℤ) := by
      rw [Int.floor_lt]
      exact_mod_cast h1
    omega
  unfold handleSpawning
  rw [hq]
  dsimp only
  rw [if_pos hcd, hcfg]
  dsimp only [spawnEnemy]
  rw [hq]
  exact ⟨rfl, rfl, hidx, rfl⟩

/-- A spawning-state session for the C9 witness: queue `["grunt"]`,
cooldown already elapsed. -/
def spawnScenarioState : GameState :=
  { occupiedState with
    towers := []
    waveState := { waveInProgress := true, timeToNextWave := 0,
                   spawnQueue := ["grunt"], spawnCooldown := 0 } }

/-- The enemy type table for the C9 witness. -/
def gruntConfig : EnemyTypeConfig :=
  { base_stats := { hp := 20, speed := 50, armor := 0, damage := 1, bounty := 2,
                    immunities := [] },
    min_level_difficulty := 0 }

def spawnConfigs : AllConfigs :=
  { placeConfigs with enemyTypes := [("grunt", gruntConfig)] }

/-- Witness for `wave_spawn_cooldown_formula` on the concrete spawning
session, with one route and `rand = 1/2`, `dt = 1`. -/
theorem wave_spawn_cooldown_formula_witness :
    (handleSpawning spawnScenarioState spawnConfigs [[{ x := 16, y := 16 }]] (1/2) "e9"
        1).waveState.spawnQueue = [] ∧
    (handleSpawning spawnScenarioState spawnConfigs [[{ x := 16, y := 16 }]] (1/2) "e9"
        1).waveState.spawnCooldown =
      max spawnConfigs.waveScaling.spawn_cooldown.minimum_seconds
        (spawnConfigs.waveScaling.spawn_cooldown.base_seconds -
          spawnConfigs.waveScaling.spawn_cooldown.reduction_per_wave *
            (spawnScenarioState.currentWave : ℚ) -
          spawnConfigs.waveScaling.spawn_cooldown.reduction_per_level_difficulty *
            spawnConfigs.gameSettings.difficulty) := by
  have h := wave_spawn_cooldown_formula spawnScenarioState spawnConfigs
    [[{ x := 16, y := 16 }]] (1/2) "e9" 1 "grunt" [] gruntConfig
    rfl (by norm_num [spawnScenarioState]) (by decide) (by norm_num) (by norm_num)
    (by simp)
  exact ⟨h.1, h.2.1⟩

/-! ## Pathfinder (`services/level_generation/Pathfinder.ts`)

The A* search over a 0/1 grid (`0` walkable, `1` obstacle). The source's
`PathNode.parent` pointer chain is materialized as `cameFrom`, the list of
ancestor coordinates oldest-first, so that `reconstructPath` (push along
the parents, then reverse) is `cameFrom ++ [(x, y)]`. -/

/-- `Pathfinder.ts`, `class PathNode`. A fresh node (`new PathNode(x, y)`)
has `gCost = hCost = 0` and no parent. -/
structure PathNode where
  x : ℤ
  y : ℤ
  gCost : ℕ
  hCost : ℕ
  cameFrom : List (ℤ × ℤ)
deriving Repr, DecidableEq

/-- `PathNode.getDistance`: Manhattan distance. -/
def nodeDistance (a b : PathNode) : ℕ :=
  (a.x - b.x).natAbs + (a.y - b.y).natAbs

/-- `grid[y][x]` (always called on in-bounds coordinates). -/
def gridAt (grid : List (List ℕ)) (x y : ℤ) : ℕ :=
  (grid.getD y.toNat []).getD x.toNat 0

/-- `PathfinderService.getNeighbors`: the four direct neighbors, in the
order up, down, left, right, filtered to the grid bounds, as fresh nodes. -/
def getNeighbors (node : PathNode) (width height : ℕ) : List PathNode :=
  ([((0 : ℤ), (-1 : ℤ)), (0, 1), (-1, 0), (1, 0)]).filterMap fun dir =>
    let newX := node.x + dir.1
    let newY := node.y + dir.2
    if 0 ≤ newX ∧ newX < (width : ℤ) ∧ 0 ≤ newY ∧ newY < (height : ℤ) then
      some { x := newX, y := newY, gCost := 0, hCost := 0, cameFrom := [] }
    else none

/-- The open-list scan of `PathfinderService.findPath`: the index of the
first node with strictly lowest `fCost` (ties broken by strictly lower
`hCost`), starting from index 0. -/
def bestNodeIndexAux : List PathNode → PathNode → ℕ → ℕ → ℕ
  | [], _, bestIdx, _ => bestIdx
  | n :: rest, best, bestIdx, i =>
      if n.gCost + n.hCost < best.gCost + best.hCost ∨
          (n.gCost + n.hCost = best.gCost + best.hCost ∧ n.hCost < best.hCost) then
        bestNodeIndexAux rest n i (i + 1)
      else
        bestNodeIndexAux rest best bestIdx (i + 1)

def bestNodeIndex : List PathNode → ℕ
  | [] => 0
  | n :: rest => bestNodeIndexAux rest n 0 1

/-- `PathfinderService.reconstructPath`: walk the parent chain and
reverse. -/
def reconstructPath (endNode : PathNode) : List (ℤ × ℤ) :=
  endNode.cameFrom ++ [(endNode.x, endNode.y)]

/-- The body of one neighbor-loop iteration of `findPath`: skip obstacles
and closed nodes; compute the tentative g-cost; a fresh neighbor node has
`gCost = 0` so the `newGCost < neighbor.gCost` update test can only matter
together with `!isInOpenList`, in which case the node is initialized and
pushed; an update of a node already in the open list never happens (the
comparison is against the fresh node, and nothing is pushed). -/
def processNeighbor (grid : List (List ℕ)) (endNode currentNode : PathNode)
    (closedList : List PathNode) (op : List PathNode) (neighbor : PathNode) :
    List PathNode :=
  if gridAt grid neighbor.x neighbor.y = 1 ∨
      closedList.any (fun n => n.x == neighbor.x && n.y == neighbor.y) then op
  else
    let newGCost := currentNode.gCost + nodeDistance currentNode neighbor
    let isInOpenList := op.any (fun n => n.x == neighbor.x && n.y == neighbor.y)
    if newGCost < neighbor.gCost ∨ ¬ isInOpenList then
      let neighborInit := { neighbor with
        gCost := newGCost,
        hCost := nodeDistance neighbor endNode,
        cameFrom := currentNode.cameFrom ++ [(currentNode.x, currentNode.y)] }
      if ¬ isInOpenList then op ++ [neighborInit] else op
    else op

/-- The `while (openList.length > 0)` loop of `findPath`, with explicit
fuel. Each iteration moves one node (of fresh coordinates) from the open
to the closed list and the coordinates all lie in the grid box or equal the
start, so `width*height + 2` fuel is never exhausted (proved below); the
fuel-out branch mirrors the no-route result. -/
def astarLoop (grid : List (List ℕ)) (endNode : PathNode) (width height : ℕ) :
    ℕ → List PathNode → List PathNode → List (ℤ × ℤ)
  | 0, _, _ => []
  | fuel + 1, openList, closedList =>
    match openList with
    | [] => []
    | _ :: _ =>
      let idx := bestNodeIndex openList
      match openList[idx]? with
      | none => []
      | some currentNode =>
        let openRest := openList.eraseIdx idx
        let closedList' := closedList ++ [currentNode]
        if currentNode.x = endNode.x ∧ currentNode.y = endNode.y then
          reconstructPath currentNode
        else
          let neighbors := getNeighbors currentNode width height
          let openNext := neighbors.foldl
            (processNeighbor grid endNode currentNode closedList') openRest
          astarLoop grid endNode width height fuel openNext closedList'

/-- `PathfinderService.findPath`: A* from `start` to `finish` on a 0/1
grid; an array of coordinates, or the empty array when no route is found.
Never throws. -/
def findPath (grid : List (List ℕ)) (start finish : ℤ × ℤ) : List (ℤ × ℤ) :=
  let gridWidth := (grid.headD []).length
  let gridHeight := grid.length
  let startNode : PathNode :=
    { x := start.1, y := start.2, gCost := 0, hCost := 0, cameFrom := [] }
  let endNode : PathNode :=
    { x := finish.1, y := finish.2, gCost := 0, hCost := 0, cameFrom := [] }
  astarLoop grid endNode gridWidth gridHeight (gridWidth * gridHeight + 2)
    [startNode] []

/-! ### Route specification and search invariants for the pathfinder -/

/-- Two cells are 4-directionally adjacent. -/
def adjacentCell (a b : ℤ × ℤ) : Prop :=
  (a.1 - b.1).natAbs + (a.2 - b.2).natAbs = 1

instance (a b : ℤ × ℤ) : Decidable (adjacentCell a b) :=
  inferInstanceAs (Decidable ((a.1 - b.1).natAbs + (a.2 - b.2).natAbs = 1))

/-- Boolean adjacency-chain check (kernel-computable decidability for
`Chain' adjacentCell`). -/
def adjChainB : List (ℤ × ℤ) → Bool
  | a :: b :: rest => decide (adjacentCell a b) && adjChainB (b :: rest)
  | _ => true

theorem adjChainB_iff : ∀ l : List (ℤ × ℤ),
    adjChainB l = true ↔ l.Chain' adjacentCell
  | [] => by simp [adjChainB]
  | [a] => by simp [adjChainB]
  | a :: b :: rest => by
    rw [List.chain'_cons, ← adjChainB_iff (b :: rest)]
    simp [adjChainB, Bool.and_eq_true, decide_eq_true_iff, and_comm]

instance (l : List (ℤ × ℤ)) : Decidable (l.Chain' adjacentCell) :=
  decidable_of_iff (adjChainB l = true) (adjChainB_iff l)

/-- A cell lies inside the `width × height` grid box. -/
def InBox (width height : ℕ) (c : ℤ × ℤ) : Prop :=
  0 ≤ c.1 ∧ c.1 < (width : ℤ) ∧ 0 ≤ c.2 ∧ c.2 < (height : ℤ)

instance (width height : ℕ) (c : ℤ × ℤ) : Decidable (InBox width height c) :=
  inferInstanceAs
    (Decidable (0 ≤ c.1 ∧ c.1 < (width : ℤ) ∧ 0 ≤ c.2 ∧ c.2 < (height : ℤ)))

/-- A connected walkable route from `start` to `finish` on the grid, in the
sense of the specification: non-empty (it has a head), 4-directionally
connected, staying on in-bounds cells that are not obstacles. -/
def ValidRoute (grid : List (List ℕ)) (start finish : ℤ × ℤ)
    (route : List (ℤ × ℤ)) : Prop :=
  route.head? = some start ∧ route.getLast? = some finish ∧
  route.Chain' adjacentCell ∧
  ∀ c ∈ route, InBox (grid.headD []).length grid.length c ∧ gridAt grid c.1 c.2 ≠ 1

instance (grid : List (List ℕ)) (start finish : ℤ × ℤ) (route : List (ℤ × ℤ)) :
    Decidable (ValidRoute grid start finish route) :=
  inferInstanceAs (Decidable (route.head? = some start ∧
    route.getLast? = some finish ∧ route.Chain' adjacentCell ∧
    ∀ c ∈ route,
      InBox (grid.headD []).length grid.length c ∧ gridAt grid c.1 c.2 ≠ 1))

/-- The cells of a node's reconstructed path, oldest first. -/
def nodeCells (n : PathNode) : List (ℤ × ℤ) :=
  n.cameFrom ++ [(n.x, n.y)]

/-- The coordinates of a node list. -/
def nodeCoords (l : List PathNode) : List (ℤ × ℤ) :=
  l.map fun n => (n.x, n.y)

/-- A node's parent chain is a well-formed partial route: it starts at the
search's start cell, is 4-connected, and every cell after the first is an
in-bounds non-obstacle cell. -/
def ChainOk (grid : List (List ℕ)) (width height : ℕ) (start : ℤ × ℤ)
    (n : PathNode) : Prop :=
  (nodeCells n).head? = some start ∧ (nodeCells n).Chain' adjacentCell ∧
  ∀ c ∈ (nodeCells n).drop 1, InBox width height c ∧ gridAt grid c.1 c.2 ≠ 1

/-- The loop invariant of the A* search. -/
structure AStarInv (grid : List (List ℕ)) (width height : ℕ)
    (start finish : ℤ × ℤ) (openList closedList : List PathNode) : Prop where
  start_mem : start ∈ nodeCoords openList ∨ start ∈ nodeCoords closedList
  closure : ∀ c ∈ closedList, ∀ v : ℤ × ℤ, adjacentCell (c.x, c.y) v →
    InBox width height v → gridAt grid v.1 v.2 ≠ 1 →
    v ∈ nodeCoords openList ∨ v ∈ nodeCoords closedList
  finish_not_closed : finish ∉ nodeCoords closedList
  closed_nodup : (nodeCoords closedList).Nodup
  open_nodup : (nodeCoords openList).Nodup
  disjoint : ∀ n ∈ openList, (n.x, n.y) ∉ nodeCoords closedList
  inbox : ∀ n ∈ openList ++ closedList,
    InBox width height (n.x, n.y) ∨ (n.x, n.y) = start
  chains : ∀ n ∈ openList ++ closedList, ChainOk grid width height start n

theorem bestNodeIndexAux_lt :
    ∀ (rest : List PathNode) (best : PathNode) (bestIdx i : ℕ), bestIdx < i →
      bestNodeIndexAux rest best bestIdx i < i + rest.length := by
  intro rest
  induction rest with
  | nil => intro best bestIdx i h; simpa [bestNodeIndexAux] using h
  | cons n ns ih =>
    intro best bestIdx i h
    unfold bestNodeIndexAux
    split
    · have h2 := ih n i (i + 1) (Nat.lt_succ_self i)
      simp only [List.length_cons]
      omega
    · have h2 := ih best bestIdx (i + 1) (Nat.lt_succ_of_lt h)
      simp only [List.length_cons]
      omega

theorem bestNodeIndex_lt (l : List PathNode) (h : l ≠ []) :
    bestNodeIndex l < l.length := by
  cases l with
  | nil => exact absurd rfl h
  | cons n ns =>
    have := bestNodeIndexAux_lt ns n 0 1 Nat.zero_lt_one
    simpa [bestNodeIndex, Nat.add_comm] using this

theorem list_split_at_getElem? {α : Type} :
    ∀ (l : List α) (i : ℕ) (a : α), l[i]? = some a →
      l = l.take i ++ a :: l.drop (i + 1) ∧
      l.eraseIdx i = l.take i ++ l.drop (i + 1) := by
  intro l
  induction l with
  | nil => intro i a h; simp at h
  | cons b bs ih =>
    intro i a h
    cases i with
    | zero =>
      simp only [List.getElem?_cons_zero, Option.some.injEq] at h
      subst h
      exact ⟨by simp, by simp [List.eraseIdx]⟩
    | succ j =>
      simp only [List.getElem?_cons_succ] at h
      obtain ⟨h1, h2⟩ := ih j a h
      constructor
      · conv_lhs => rw [show b :: bs = b :: (bs.take j ++ a :: bs.drop (j + 1)) from by rw [← h1]]
        simp
      · simp [List.eraseIdx, h2]

/-- Adjacency means displacement by one of the four direction vectors. -/
theorem adjacent_iff_dir (a b : ℤ × ℤ) :
    adjacentCell a b ↔
      ∃ d ∈ ([((0 : ℤ), (-1 : ℤ)), (0, 1), (-1, 0), (1, 0)] : List (ℤ × ℤ)),
        b = (a.1 + d.1, a.2 + d.2) := by
  constructor
  · intro hadj
    unfold adjacentCell at hadj
    have hcase : (b.1 - a.1 = 0 ∧ b.2 - a.2 = -1) ∨ (b.1 - a.1 = 0 ∧ b.2 - a.2 = 1) ∨
        (b.1 - a.1 = -1 ∧ b.2 - a.2 = 0) ∨ (b.1 - a.1 = 1 ∧ b.2 - a.2 = 0) := by
      omega
    rcases hcase with ⟨h1, h2⟩ | ⟨h1, h2⟩ | ⟨h1, h2⟩ | ⟨h1, h2⟩
    · exact ⟨(0, -1), by simp, by obtain ⟨b1, b2⟩ := b; simp_all; omega⟩
    · exact ⟨(0, 1), by simp, by obtain ⟨b1, b2⟩ := b; simp_all; omega⟩
    · exact ⟨(-1, 0), by simp, by obtain ⟨b1, b2⟩ := b; simp_all; omega⟩
    · exact ⟨(1, 0), by simp, by obtain ⟨b1, b2⟩ := b; simp_all; omega⟩
  · rintro ⟨d, hd, rfl⟩
    unfold adjacentCell
    simp only [List.mem_cons, List.mem_singleton, List.not_mem_nil, or_false] at hd
    rcases hd with rfl | rfl | rfl | rfl <;> (dsimp only; omega)

theorem anyCoords_iff (l : List PathNode) (cx cy : ℤ) :
    (l.any fun n => n.x == cx && n.y == cy) = true ↔ (cx, cy) ∈ nodeCoords l := by
  simp only [List.any_eq_true, Bool.and_eq_true, beq_iff_eq, nodeCoords, List.mem_map,
    Prod.mk.injEq]

theorem getNeighbors_mem (cur : PathNode) (width height : ℕ) (n : PathNode)
    (hn : n ∈ getNeighbors cur width height) :
    InBox width height (n.x, n.y) ∧ adjacentCell (cur.x, cur.y) (n.x, n.y) ∧
    n.gCost = 0 ∧ n.cameFrom = [] := by
  simp only [getNeighbors, List.mem_filterMap] at hn
  obtain ⟨d, hd, hsome⟩ := hn
  by_cases hbox : 0 ≤ cur.x + d.1 ∧ cur.x + d.1 < (width : ℤ) ∧
      0 ≤ cur.y + d.2 ∧ cur.y + d.2 < (height : ℤ)
  · rw [if_pos hbox] at hsome
    obtain rfl := Option.some.inj hsome
    refine ⟨⟨hbox.1, hbox.2.1, hbox.2.2.1, hbox.2.2.2⟩, ?_, rfl, rfl⟩
    simp only [List.mem_cons, List.mem_singleton, List.not_mem_nil, or_false] at hd
    unfold adjacentCell
    rcases hd with rfl | rfl | rfl | rfl <;> (dsimp only; omega)
  · rw [if_neg hbox] at hsome
    exact absurd hsome (by simp)

theorem getNeighbors_covers (cur : PathNode) (width height : ℕ) (v : ℤ × ℤ)
    (hadj : adjacentCell (cur.x, cur.y) v) (hbox : InBox width height v) :
    ∃ n ∈ getNeighbors cur width height, (n.x, n.y) = v := by
  obtain ⟨d, hd, rfl⟩ := (adjacent_iff_dir _ _).mp hadj
  refine ⟨{ x := cur.x + d.1, y := cur.y + d.2, gCost := 0, hCost := 0, cameFrom := [] },
    ?_, rfl⟩
  simp only [getNeighbors, List.mem_filterMap]
  exact ⟨d, hd, by rw [if_pos ⟨hbox.1, hbox.2.1, hbox.2.2.1, hbox.2.2.2⟩]⟩

theorem processNeighbor_step (grid : List (List ℕ)) (endNode cur : PathNode)
    (closed' : List PathNode) (op : List PathNode) (nb : PathNode) :
    processNeighbor grid endNode cur closed' op nb = op ∨
    (processNeighbor grid endNode cur closed' op nb =
        op ++ [{ x := nb.x, y := nb.y, gCost := cur.gCost + nodeDistance cur nb,
                 hCost := nodeDistance nb endNode,
                 cameFrom := cur.cameFrom ++ [(cur.x, cur.y)] }] ∧
      gridAt grid nb.x nb.y ≠ 1 ∧ (nb.x, nb.y) ∉ nodeCoords closed' ∧
      (nb.x, nb.y) ∉ nodeCoords op) := by
  unfold processNeighbor
  by_cases hskip : gridAt grid nb.x nb.y = 1 ∨
      (closed'.any fun n => n.x == nb.x && n.y == nb.y) = true
  · left
    rw [if_pos hskip]
  · rw [if_neg hskip]
    push_neg at hskip
    by_cases hopen : (op.any fun n => n.x == nb.x && n.y == nb.y) = true
    · left
      have hnn : ¬¬ (op.any fun n => n.x == nb.x && n.y == nb.y) = true :=
        not_not_intro hopen
      by_cases hg : cur.gCost + nodeDistance cur nb < nb.gCost
      · rw [if_pos (Or.inl hg), if_neg hnn]
      · rw [if_neg ?_]
        rintro (h | h)
        · exact hg h
        · exact hnn h
    · right
      rw [if_pos (Or.inr hopen), if_pos hopen]
      exact ⟨rfl, hskip.1, fun hmem => hskip.2 ((anyCoords_iff _ _ _).mpr hmem),
        fun hmem => hopen ((anyCoords_iff _ _ _).mpr hmem)⟩

theorem nodeCoords_append (a b : List PathNode) :
    nodeCoords (a ++ b) = nodeCoords a ++ nodeCoords b := by
  simp [nodeCoords]

theorem processNeighbor_fold_subset (grid : List (List ℕ)) (endNode cur : PathNode)
    (closed' : List PathNode) :
    ∀ (ns : List PathNode) (op : List PathNode),
      ∃ extra, ns.foldl (processNeighbor grid endNode cur closed') op = op ++ extra := by
  intro ns
  induction ns with
  | nil => intro op; exact ⟨[], by simp⟩
  | cons nb rest ih =>
    intro op
    rw [List.foldl_cons]
    obtain ⟨extra, hex⟩ := ih (processNeighbor grid endNode cur closed' op nb)
    rcases processNeighbor_step grid endNode cur closed' op nb with hstep | ⟨hstep, -, -, -⟩
    · rw [hex, hstep]; exact ⟨extra, rfl⟩
    · rw [hex, hstep, List.append_assoc]; exact ⟨_, rfl⟩

theorem processNeighbor_fold_mem_mono (grid : List (List ℕ)) (endNode cur : PathNode)
    (closed' : List PathNode) (ns : List PathNode) (op : List PathNode) (m : PathNode)
    (hm : m ∈ op) : m ∈ ns.foldl (processNeighbor grid endNode cur closed') op := by
  obtain ⟨extra, hex⟩ := processNeighbor_fold_subset grid endNode cur closed' ns op
  rw [hex]
  exact List.mem_append_left _ hm

theorem processNeighbor_fold_coords_mono (grid : List (List ℕ)) (endNode cur : PathNode)
    (closed' : List PathNode) (ns : List PathNode) (op : List PathNode) (v : ℤ × ℤ)
    (hv : v ∈ nodeCoords op) :
    v ∈ nodeCoords (ns.foldl (processNeighbor grid endNode cur closed') op) := by
  obtain ⟨extra, hex⟩ := processNeighbor_fold_subset grid endNode cur closed' ns op
  rw [hex]
  simpa [nodeCoords] using Or.inl (by simpa [nodeCoords] using hv)

theorem processNeighbor_fold_mem (grid : List (List ℕ)) (endNode cur : PathNode)
    (closed' : List PathNode) :
    ∀ (ns : List PathNode) (op : List PathNode) (m : PathNode),
      m ∈ ns.foldl (processNeighbor grid endNode cur closed') op →
      m ∈ op ∨ ∃ nb ∈ ns,
        m = { x := nb.x, y := nb.y, gCost := cur.gCost + nodeDistance cur nb,
              hCost := nodeDistance nb endNode,
              cameFrom := cur.cameFrom ++ [(cur.x, cur.y)] } ∧
        gridAt grid nb.x nb.y ≠ 1 ∧ (nb.x, nb.y) ∉ nodeCoords closed' := by
  intro ns
  induction ns with
  | nil => intro op m hm; exact Or.inl hm
  | cons nb rest ih =>
    intro op m hm
    rw [List.foldl_cons] at hm
    rcases processNeighbor_step grid endNode cur closed' op nb with hstep | ⟨hstep, hob, hcl, -⟩
    · rw [hstep] at hm
      rcases ih op m hm with h | ⟨nb', h1, h2, h3, h4⟩
      · exact Or.inl h
      · exact Or.inr ⟨nb', List.mem_cons_of_mem _ h1, h2, h3, h4⟩
    · rw [hstep] at hm
      rcases ih _ m hm with h | ⟨nb', h1, h2, h3, h4⟩
      · rcases List.mem_append.mp h with h' | h'
        · exact Or.inl h'
        · refine Or.inr ⟨nb, List.mem_cons_self _ _, ?_, hob, hcl⟩
          simpa using h'
      · exact Or.inr ⟨nb', List.mem_cons_of_mem _ h1, h2, h3, h4⟩

theorem processNeighbor_fold_covers (grid : List (List ℕ)) (endNode cur : PathNode)
    (closed' : List PathNode) :
    ∀ (ns : List PathNode) (op : List PathNode) (nb : PathNode), nb ∈ ns →
      gridAt grid nb.x nb.y ≠ 1 → (nb.x, nb.y) ∉ nodeCoords closed' →
      (nb.x, nb.y) ∈ nodeCoords (ns.foldl (processNeighbor grid endNode cur closed') op) := by
  intro ns
  induction ns with
  | nil => intro op nb h; simp at h
  | cons nb0 rest ih =>
    intro op nb hmem hob hcl
    rw [List.foldl_cons]
    rcases List.mem_cons.mp hmem with rfl | hmem'
    · rcases processNeighbor_step grid endNode cur closed' op nb with hstep | ⟨hstep, -, -, -⟩
      · rw [hstep]
        by_cases hop : (nb.x, nb.y) ∈ nodeCoords op
        · exact processNeighbor_fold_coords_mono grid endNode cur closed' rest op _ hop
        · exfalso
          unfold processNeighbor at hstep
          rw [if_neg (by
            push_neg
            exact ⟨hob, fun hc => hcl ((anyCoords_iff _ _ _).mp hc)⟩)] at hstep
          have hopen : ¬ (op.any fun n => n.x == nb.x && n.y == nb.y) = true :=
            fun hc => hop ((anyCoords_iff _ _ _).mp hc)
          rw [if_pos (Or.inr hopen), if_pos hopen] at hstep
          exact absurd hstep (by simp)
      · rw [hstep]
        refine processNeighbor_fold_coords_mono grid endNode cur closed' rest _ _ ?_
        simp [nodeCoords]
    · rcases processNeighbor_step grid endNode cur closed' op nb0 with hstep | ⟨hstep, -, -, -⟩
      · rw [hstep]; exact ih op nb hmem' hob hcl
      · rw [hstep]; exact ih _ nb hmem' hob hcl

theorem processNeighbor_fold_nodup (grid : List (List ℕ)) (endNode cur : PathNode)
    (closed' : List PathNode) :
    ∀ (ns : List PathNode) (op : List PathNode), (nodeCoords op).Nodup →
      (nodeCoords (ns.foldl (processNeighbor grid endNode cur closed') op)).Nodup := by
  intro ns
  induction ns with
  | nil => intro op h; exact h
  | cons nb rest ih =>
    intro op h
    rw [List.foldl_cons]
    rcases processNeighbor_step grid endNode cur closed' op nb with hstep | ⟨hstep, -, -, hop⟩
    · rw [hstep]; exact ih op h
    · rw [hstep]
      refine ih _ ?_
      rw [nodeCoords_append, List.nodup_append]
      refine ⟨h, by simp [nodeCoords], ?_⟩
      simpa [nodeCoords, List.disjoint_singleton] using hop

theorem chainOk_extend (grid : List (List ℕ)) (width height : ℕ) (start : ℤ × ℤ)
    (cur : PathNode) (v : ℤ × ℤ) (g h : ℕ)
    (hok : ChainOk grid width height start cur)
    (hadj : adjacentCell (cur.x, cur.y) v) (hbox : InBox width height v)
    (hwalk : gridAt grid v.1 v.2 ≠ 1) :
    ChainOk grid width height start
      { x := v.1, y := v.2, gCost := g, hCost := h,
        cameFrom := cur.cameFrom ++ [(cur.x, cur.y)] } := by
  obtain ⟨hhead, hchain, htail⟩ := hok
  have hcells : nodeCells { x := v.1, y := v.2, gCost := g, hCost := h, cameFrom := cur.cameFrom ++ [(cur.x, cur.y)] } = nodeCells cur ++ [v] := by
    simp [nodeCells]
  refine ⟨?_, ?_, ?_⟩
  · rw [hcells, List.head?_append]
    unfold nodeCells at hhead ⊢
    rw [hhead]
    rfl
  · rw [hcells]
    refine List.Chain'.append hchain (List.chain'_singleton _) ?_
    intro x hx y hy
    have hlast : (nodeCells cur).getLast? = some (cur.x, cur.y) := by
      unfold nodeCells
      exact List.getLast?_concat _
    rw [hlast] at hx
    simp only [Option.mem_def, Option.some.injEq] at hx hy
    simp only [List.head?_cons, Option.some.injEq] at hy
    subst hx
    subst hy
    exact hadj
  · rw [hcells]
    have hne : nodeCells cur ≠ [] := by unfold nodeCells; simp
    have hlen : 1 ≤ (nodeCells cur).length := by
      cases hcl : nodeCells cur with
      | nil => exact absurd hcl hne
      | cons a as => simp
    rw [List.drop_append_of_le_length hlen]
    intro c hc
    rcases List.mem_append.mp hc with h' | h'
    · exact htail c h'
    · simp only [List.mem_singleton] at h'
      subst h'
      exact ⟨hbox, hwalk⟩

theorem astar_inv_step (grid : List (List ℕ)) (width height : ℕ) (start : ℤ × ℤ)
    (endNode : PathNode) (openL closedL : List PathNode) (idx : ℕ) (cur : PathNode)
    (inv : AStarInv grid width height start (endNode.x, endNode.y) openL closedL)
    (hcur : openL[idx]? = some cur)
    (hne : ¬(cur.x = endNode.x ∧ cur.y = endNode.y)) :
    AStarInv grid width height start (endNode.x, endNode.y)
      ((getNeighbors cur width height).foldl
        (processNeighbor grid endNode cur (closedL ++ [cur])) (openL.eraseIdx idx))
      (closedL ++ [cur]) := by
  obtain ⟨hsplit, herase⟩ := list_split_at_getElem? openL idx cur hcur
  have hcurmem : cur ∈ openL := by rw [hsplit]; simp
  have hcoordsplit : nodeCoords openL =
      nodeCoords (openL.take idx) ++ (cur.x, cur.y) :: nodeCoords (openL.drop (idx + 1)) := by
    conv_lhs => rw [hsplit]
    simp [nodeCoords]
  have hrestco : nodeCoords (openL.eraseIdx idx) =
      nodeCoords (openL.take idx) ++ nodeCoords (openL.drop (idx + 1)) := by
    rw [herase]; simp [nodeCoords]
  have hopennd := inv.open_nodup
  rw [hcoordsplit] at hopennd
  have hnd3 := List.nodup_append.mp hopennd
  have hcur_not_rest : (cur.x, cur.y) ∉ nodeCoords (openL.eraseIdx idx) := by
    rw [hrestco]
    intro hmem
    rcases List.mem_append.mp hmem with hmA | hmB
    · exact hnd3.2.2 hmA (List.mem_cons_self _ _)
    · exact (List.nodup_cons.mp hnd3.2.1).1 hmB
  have hmem_rest : ∀ v, v ∈ nodeCoords openL →
      v = (cur.x, cur.y) ∨ v ∈ nodeCoords (openL.eraseIdx idx) := by
    intro v hv
    rw [hcoordsplit] at hv
    rw [hrestco]
    rcases List.mem_append.mp hv with hmA | hmB
    · exact Or.inr (List.mem_append_left _ hmA)
    · rcases List.mem_cons.mp hmB with h2 | h2
      · exact Or.inl h2
      · exact Or.inr (List.mem_append_right _ h2)
  have hrest_sub : ∀ m, m ∈ openL.eraseIdx idx → m ∈ openL := by
    intro m hm
    rw [herase] at hm
    rw [hsplit]
    rcases List.mem_append.mp hm with h1 | h1
    · exact List.mem_append_left _ h1
    · exact List.mem_append_right _ (List.mem_cons_of_mem _ h1)
  have hclosedco : nodeCoords (closedL ++ [cur]) =
      nodeCoords closedL ++ [(cur.x, cur.y)] := by
    simp [nodeCoords]
  have hfinne : ((endNode.x, endNode.y) : ℤ × ℤ) ≠ (cur.x, cur.y) := by
    intro h
    exact hne ⟨(congrArg Prod.fst h).symm, (congrArg Prod.snd h).symm⟩
  refine ⟨?_, ?_, ?_, ?_, ?_, ?_, ?_, ?_⟩
  · -- start_mem
    rcases inv.start_mem with h | h
    · rcases hmem_rest start h with h1 | h1
      · refine Or.inr ?_
        rw [hclosedco, h1]
        simp
      · exact Or.inl (processNeighbor_fold_coords_mono _ _ _ _ _ _ _ h1)
    · refine Or.inr ?_
      rw [hclosedco]
      exact List.mem_append_left _ h
  · -- closure
    intro c hc v hadj hbox hwalk
    rcases List.mem_append.mp hc with hcold | hcc
    · rcases inv.closure c hcold v hadj hbox hwalk with h | h
      · rcases hmem_rest v h with h1 | h1
        · refine Or.inr ?_
          rw [hclosedco, h1]
          simp
        · exact Or.inl (processNeighbor_fold_coords_mono _ _ _ _ _ _ _ h1)
      · refine Or.inr ?_
        rw [hclosedco]
        exact List.mem_append_left _ h
    · simp only [List.mem_singleton] at hcc
      subst hcc
      by_cases hvc : v ∈ nodeCoords (closedL ++ [c])
      · exact Or.inr hvc
      · obtain ⟨nb, hnb, hnbco⟩ := getNeighbors_covers c width height v hadj hbox
        obtain ⟨hb1, hb2⟩ : nb.x = v.1 ∧ nb.y = v.2 :=
          ⟨congrArg Prod.fst hnbco, congrArg Prod.snd hnbco⟩
        refine Or.inl ?_
        have hcov := processNeighbor_fold_covers grid endNode c (closedL ++ [c])
          (getNeighbors c width height) (openL.eraseIdx idx) nb hnb
          (by rw [hb1, hb2]; exact hwalk)
          (by rw [show ((nb.x, nb.y) : ℤ × ℤ) = v from hnbco]; exact hvc)
        rw [show ((nb.x, nb.y) : ℤ × ℤ) = v from hnbco] at hcov
        exact hcov
  · -- finish_not_closed
    rw [hclosedco]
    intro hmem
    rcases List.mem_append.mp hmem with h1 | h1
    · exact inv.finish_not_closed h1
    · exact hfinne (List.mem_singleton.mp h1)
  · -- closed_nodup
    rw [hclosedco, List.nodup_append]
    refine ⟨inv.closed_nodup, List.nodup_singleton _, ?_⟩
    intro a ha hmem
    rw [List.mem_singleton] at hmem
    subst hmem
    exact inv.disjoint cur hcurmem ha
  · -- open_nodup
    refine processNeighbor_fold_nodup _ _ _ _ _ _ ?_
    rw [hrestco]
    refine List.Nodup.sublist ?_ hopennd
    exact List.Sublist.append_left (List.sublist_cons_self _ _) _
  · -- disjoint
    intro m hm
    rcases processNeighbor_fold_mem grid endNode cur (closedL ++ [cur]) _ _ m hm with
      hold | ⟨nb, -, rfl, -, hcl⟩
    · have hmo : m ∈ openL := hrest_sub m hold
      rw [hclosedco]
      intro hmem
      rcases List.mem_append.mp hmem with h1 | h1
      · exact inv.disjoint m hmo h1
      · rw [List.mem_singleton] at h1
        refine hcur_not_rest ?_
        rw [← h1]
        exact List.mem_map_of_mem _ hold
    · exact hcl
  · -- inbox
    intro m hm
    rcases List.mem_append.mp hm with hmo | hmc
    · rcases processNeighbor_fold_mem grid endNode cur (closedL ++ [cur]) _ _ m hmo with
        hold | ⟨nb, hnb, rfl, -, -⟩
      · exact inv.inbox m (List.mem_append_left _ (hrest_sub m hold))
      · exact Or.inl (getNeighbors_mem cur width height nb hnb).1
    · rcases List.mem_append.mp hmc with h1 | h1
      · exact inv.inbox m (List.mem_append_right _ h1)
      · rw [List.mem_singleton] at h1
        subst h1
        exact inv.inbox m (List.mem_append_left _ hcurmem)
  · -- chains
    intro m hm
    rcases List.mem_append.mp hm with hmo | hmc
    · rcases processNeighbor_fold_mem grid endNode cur (closedL ++ [cur]) _ _ m hmo with
        hold | ⟨nb, hnb, rfl, hob, -⟩
      · exact inv.chains m (List.mem_append_left _ (hrest_sub m hold))
      · obtain ⟨hbox, hadj, -, -⟩ := getNeighbors_mem cur width height nb hnb
        exact chainOk_extend grid width height start cur (nb.x, nb.y) _ _
          (inv.chains cur (List.mem_append_left _ hcurmem)) hadj hbox hob
    · rcases List.mem_append.mp hmc with h1 | h1
      · exact inv.chains m (List.mem_append_right _ h1)
      · rw [List.mem_singleton] at h1
        subst h1
        exact inv.chains m (List.mem_append_left _ hcurmem)

theorem reconstructPath_ne_nil (cur : PathNode) : reconstructPath cur ≠ [] := by
  unfold reconstructPath
  simp

theorem astarLoop_sound (grid : List (List ℕ)) (width height : ℕ) (start : ℤ × ℤ)
    (endNode : PathNode) :
    ∀ (fuel : ℕ) (openL closedL : List PathNode),
      AStarInv grid width height start (endNode.x, endNode.y) openL closedL →
      astarLoop grid endNode width height fuel openL closedL ≠ [] →
      ∃ cur : PathNode, cur.x = endNode.x ∧ cur.y = endNode.y ∧
        ChainOk grid width height start cur ∧
        astarLoop grid endNode width height fuel openL closedL = reconstructPath cur := by
  intro fuel
  induction fuel with
  | zero => intro openL closedL _ hne; exact absurd rfl hne
  | succ f ih =>
    intro openL closedL inv hne
    match openL with
    | [] =>
      unfold astarLoop at hne
      exact absurd rfl hne
    | o :: os =>
      unfold astarLoop at hne ⊢
      dsimp only at hne ⊢
      cases hcur : (o :: os)[bestNodeIndex (o :: os)]? with
      | none =>
        rw [hcur] at hne
        exact (hne rfl).elim
      | some cur =>
        rw [hcur] at hne
        dsimp only at hne ⊢
        by_cases hend : cur.x = endNode.x ∧ cur.y = endNode.y
        · rw [if_pos hend] at hne ⊢
          obtain ⟨hsplit, -⟩ := list_split_at_getElem? (o :: os) _ cur hcur
          have hmem : cur ∈ o :: os := by rw [hsplit]; simp
          exact ⟨cur, hend.1, hend.2,
            inv.chains cur (List.mem_append_left _ hmem), rfl⟩
        · rw [if_neg hend] at hne ⊢
          exact ih _ _ (astar_inv_step grid width height start endNode (o :: os)
            closedL _ cur inv hcur hend) hne

theorem route_frontier (grid : List (List ℕ)) (width height : ℕ)
    (openL closedL : List PathNode)
    (hclosure : ∀ c ∈ closedL, ∀ v : ℤ × ℤ, adjacentCell (c.x, c.y) v →
      InBox width height v → gridAt grid v.1 v.2 ≠ 1 →
      v ∈ nodeCoords openL ∨ v ∈ nodeCoords closedL)
    (finish : ℤ × ℤ) (hfin : finish ∉ nodeCoords closedL) :
    ∀ (route : List (ℤ × ℤ)), route.Chain' adjacentCell →
      (∀ c ∈ route, InBox width height c ∧ gridAt grid c.1 c.2 ≠ 1) →
      route.getLast? = some finish →
      ∀ c0, route.head? = some c0 →
      (c0 ∈ nodeCoords openL ∨ c0 ∈ nodeCoords closedL) →
      ∃ c ∈ route, c ∈ nodeCoords openL := by
  intro route
  induction route with
  | nil => intro _ _ _ c0 h _; simp at h
  | cons a rest ih =>
    intro hchain hcells hlast c0 hhead hmem
    have ha : a = c0 := by simpa using hhead
    subst ha
    rcases hmem with hopen | hclosed
    · exact ⟨a, List.mem_cons_self _ _, hopen⟩
    · obtain ⟨n, hn, hneq⟩ := List.mem_map.mp hclosed
      cases rest with
      | nil =>
        exfalso
        have : a = finish := by simpa using hlast
        exact hfin (this ▸ hclosed)
      | cons b rest2 =>
        have hadj : adjacentCell a b := (List.chain'_cons.mp hchain).1
        have hchain2 : (b :: rest2).Chain' adjacentCell := (List.chain'_cons.mp hchain).2
        have hb := hcells b (List.mem_cons_of_mem _ (List.mem_cons_self _ _))
        have hbmem : b ∈ nodeCoords openL ∨ b ∈ nodeCoords closedL := by
          refine hclosure n hn b ?_ hb.1 hb.2
          rw [hneq]; exact hadj
        have hlast2 : (b :: rest2).getLast? = some finish := by
          rw [List.getLast?_cons_cons] at hlast; exact hlast
        obtain ⟨c, hc, hco⟩ := ih hchain2
          (fun c hc => hcells c (List.mem_cons_of_mem _ hc)) hlast2 b rfl hbmem
        exact ⟨c, List.mem_cons_of_mem _ hc, hco⟩

/-- All cells of the `width × height` grid box. -/
def boxCells (width height : ℕ) : List (ℤ × ℤ) :=
  (List.range height).flatMap fun y =>
    (List.range width).map fun x => (Int.ofNat x, Int.ofNat y)

theorem boxCells_length (width height : ℕ) :
    (boxCells width height).length = height * width := by
  induction height with
  | zero => simp [boxCells]
  | succ h ih =>
    unfold boxCells at ih ⊢
    rw [List.range_succ, List.flatMap_append]
    simp only [List.length_append, ih, List.flatMap_cons, List.flatMap_nil,
      List.append_nil, List.length_map, List.length_range]
    ring

theorem mem_boxCells (width height : ℕ) (c : ℤ × ℤ) (h : InBox width height c) :
    c ∈ boxCells width height := by
  obtain ⟨h1, h2, h3, h4⟩ := h
  refine List.mem_flatMap.mpr ⟨c.2.toNat, List.mem_range.mpr (by omega),
    List.mem_map.mpr ⟨c.1.toNat, List.mem_range.mpr (by omega), ?_⟩⟩
  show ((c.1.toNat : ℤ), (c.2.toNat : ℤ)) = c
  rw [Int.toNat_of_nonneg h1, Int.toNat_of_nonneg h3]

theorem nodup_inbox_length_le (width height : ℕ) (start : ℤ × ℤ)
    (l : List (ℤ × ℤ)) (hnd : l.Nodup)
    (hin : ∀ c ∈ l, InBox width height c ∨ c = start) :
    l.length ≤ width * height + 1 := by
  have hsub : l ⊆ boxCells width height ++ [start] := by
    intro c hc
    rcases hin c hc with h | h
    · exact List.mem_append_left _ (mem_boxCells width height c h)
    · subst h; exact List.mem_append_right _ (List.mem_singleton.mpr rfl)
  calc l.length = l.toFinset.card := (List.toFinset_card_of_nodup hnd).symm
    _ ≤ (boxCells width height ++ [start]).toFinset.card := by
        refine Finset.card_le_card ?_
        intro x hx
        rw [List.mem_toFinset] at hx ⊢
        exact hsub hx
    _ ≤ (boxCells width height ++ [start]).length := List.toFinset_card_le _
    _ = width * height + 1 := by
        simp [boxCells_length, Nat.mul_comm]

theorem astarLoop_complete (grid : List (List ℕ)) (width height : ℕ)
    (start : ℤ × ℤ) (endNode : PathNode) (route : List (ℤ × ℤ))
    (hchain : route.Chain' adjacentCell)
    (hcells : ∀ c ∈ route, InBox width height c ∧ gridAt grid c.1 c.2 ≠ 1)
    (hhead : route.head? = some start)
    (hlast : route.getLast? = some (endNode.x, endNode.y)) :
    ∀ (fuel : ℕ) (openL closedL : List PathNode),
      AStarInv grid width height start (endNode.x, endNode.y) openL closedL →
      width * height + 2 ≤ fuel + closedL.length →
      astarLoop grid endNode width height fuel openL closedL ≠ [] := by
  intro fuel
  induction fuel with
  | zero =>
    intro openL closedL inv hbud
    exfalso
    have h1 : (nodeCoords closedL).length = closedL.length := by
      simp [nodeCoords]
    have h2 : ∀ c ∈ nodeCoords closedL, InBox width height c ∨ c = start := by
      intro c hc
      obtain ⟨n, hn, hneq⟩ := List.mem_map.mp hc
      subst hneq
      exact inv.inbox n (List.mem_append_right _ hn)
    have h3 := nodup_inbox_length_le width height start (nodeCoords closedL)
      inv.closed_nodup h2
    omega
  | succ f ih =>
    intro openL closedL inv hbud
    match openL with
    | [] =>
      exfalso
      obtain ⟨c, hc, hco⟩ := route_frontier grid width height [] closedL
        inv.closure (endNode.x, endNode.y) inv.finish_not_closed route hchain
        hcells hlast start hhead inv.start_mem
      simp [nodeCoords] at hco
    | o :: os =>
      unfold astarLoop
      dsimp only
      have hlt := bestNodeIndex_lt (o :: os) (by simp)
      cases hcur : (o :: os)[bestNodeIndex (o :: os)]? with
      | none =>
        exfalso
        rw [List.getElem?_eq_none_iff] at hcur
        omega
      | some cur =>
        dsimp only
        by_cases hend : cur.x = endNode.x ∧ cur.y = endNode.y
        · rw [if_pos hend]
          exact reconstructPath_ne_nil cur
        · rw [if_neg hend]
          refine ih _ _ (astar_inv_step grid width height start endNode (o :: os)
            closedL _ cur inv hcur hend) ?_
          simp only [List.length_append, List.length_singleton]
          omega

theorem astar_initial_inv (grid : List (List ℕ)) (width height : ℕ)
    (start finish : ℤ × ℤ) :
    AStarInv grid width height start finish
      [{ x := start.1, y := start.2, gCost := 0, hCost := 0, cameFrom := [] }]
      [] := by
  refine ⟨?_, ?_, ?_, ?_, ?_, ?_, ?_, ?_⟩
  · left; simp [nodeCoords]
  · intro c hc; exact absurd hc (List.not_mem_nil c)
  · simp [nodeCoords]
  · simp [nodeCoords]
  · simp [nodeCoords]
  · intro n _; simp [nodeCoords]
  · intro n hn
    right
    simp only [List.append_nil, List.mem_singleton] at hn
    subst hn
    rfl
  · intro n hn
    simp only [List.append_nil, List.mem_singleton] at hn
    subst hn
    refine ⟨?_, ?_, ?_⟩
    · simp [nodeCells]
    · simp [nodeCells]
    · intro c hc
      simp [nodeCells] at hc

/-- C4 (amended): with an in-bounds, walkable start cell, `findPath` returns
a 4-directionally connected walkable route from `start` to `finish` whenever
any such route exists (not necessarily a shortest one), and returns the
empty list — without throwing — when no connected route exists. -/
theorem findPath_route_spec (grid : List (List ℕ)) (start finish : ℤ × ℤ)
    (hbox : InBox (grid.headD []).length grid.length start)
    (hwalk : gridAt grid start.1 start.2 ≠ 1) :
    (findPath grid start finish ≠ [] →
      ValidRoute grid start finish (findPath grid start finish)) ∧
    ((∃ route, ValidRoute grid start finish route) →
      findPath grid start finish ≠ []) := by
  constructor
  · intro hne
    unfold findPath at hne ⊢
    dsimp only at hne ⊢
    obtain ⟨cur, hx, hy, hchain, heq⟩ := astarLoop_sound grid
      (grid.headD []).length grid.length start
      { x := finish.1, y := finish.2, gCost := 0, hCost := 0, cameFrom := [] }
      ((grid.headD []).length * grid.length + 2)
      [{ x := start.1, y := start.2, gCost := 0, hCost := 0, cameFrom := [] }]
      [] (astar_initial_inv grid (grid.headD []).length grid.length start finish)
      hne
    rw [heq]
    obtain ⟨hh, hcc, hdrop⟩ := hchain
    have hnodecells : reconstructPath cur = nodeCells cur := rfl
    rw [hnodecells]
    cases hnc : nodeCells cur with
    | nil => rw [hnc] at hh; simp at hh
    | cons a t =>
      rw [hnc] at hh hcc hdrop
      have ha : a = start := by simpa using hh
      refine ⟨hh, ?_, hcc, ?_⟩
      · have : nodeCells cur = cur.cameFrom ++ [(cur.x, cur.y)] := rfl
        rw [← hnc, this, List.getLast?_concat, hx, hy]
      · intro c hc
        rcases List.mem_cons.mp hc with h | h
        · subst h; rw [ha]; exact ⟨hbox, hwalk⟩
        · exact hdrop c (by simpa using h)
  · rintro ⟨route, hh, hl, hc, hcells⟩
    unfold findPath
    dsimp only
    exact astarLoop_complete grid (grid.headD []).length grid.length start
      { x := finish.1, y := finish.2, gCost := 0, hCost := 0, cameFrom := [] }
      route hc hcells hh hl ((grid.headD []).length * grid.length + 2)
      [{ x := start.1, y := start.2, gCost := 0, hCost := 0, cameFrom := [] }]
      [] (astar_initial_inv grid (grid.headD []).length grid.length start finish)
      (by simp)

/-- A 5×3 grid (0 = walkable, 1 = blocked) on which `findPath` does not
return a shortest route: obstacles at (3,1) and (2,2). -/
def cexGrid : List (List ℕ) :=
  [[0, 0, 0, 0, 0], [0, 0, 0, 1, 0], [0, 0, 1, 0, 0]]

/-- C4 (counterexample): on `cexGrid` from (0,0) to (3,2), `findPath`
returns a 10-cell route even though a valid 8-cell route exists, because
the open-list update test compares the tentative g-cost against a fresh
node's zero g-cost and so never improves queued nodes. The returned route
is therefore not shortest. -/
theorem findPath_not_shortest :
    findPath cexGrid (0, 0) (3, 2) =
      [(0, 0), (0, 1), (1, 1), (2, 1), (2, 0), (3, 0), (4, 0), (4, 1),
        (4, 2), (3, 2)] ∧
    ValidRoute cexGrid (0, 0) (3, 2)
      [(0, 0), (1, 0), (2, 0), (3, 0), (4, 0), (4, 1), (4, 2), (3, 2)] := by
  decide

/-- Witness for `findPath_route_spec` at `cexGrid`: the start (0,0) is
in bounds and walkable, and since a valid route to (3,2) exists, the
search returns a nonempty route. -/
theorem findPath_route_spec_witness :
    InBox (cexGrid.headD []).length cexGrid.length (0, 0) ∧
    gridAt cexGrid 0 0 ≠ 1 ∧
    findPath cexGrid (0, 0) (3, 2) ≠ [] :=
  ⟨by decide, by decide,
    (findPath_route_spec cexGrid (0, 0) (3, 2) (by decide) (by decide)).2
      ⟨[(0, 0), (1, 0), (2, 0), (3, 0), (4, 0), (4, 1), (4, 2), (3, 2)],
        by decide⟩⟩

/-! ## Level generation (`services/level_generation/LevelGenerator.ts`) and
session startup (`state/gameStore.ts`, `initializeGameSession`).

`Math.random()` is modelled as a stream `rand : ℕ → ℚ` of draws consumed at
an explicit counter; JavaScript guarantees each draw lies in `[0, 1)`.
Methods that can hit a throwing `Grid.setTileType` call run in
`Except String`; `generateLevel`'s `null` result is `Option.none`. -/

/-- The generator's result (`types/game.ts`, `GenerationResult`): the carved
grid and the enemy routes in pixel coordinates. -/
structure GenerationResult where
  grid : Grid
  paths : List (List Vector2D)
deriving Repr, DecidableEq

/-- One guarded carve step, the pattern
`if (grid.isValidCoord(x, y)) grid.setTileType(x, y, type)`: the guard makes
the throwing branch of `setTileType` unreachable. -/
def carveAt (g : Grid) (x y : ℤ) (ty : String) : Grid :=
  if g.isValidCoord x y then
    match g.setTileType x y ty with
    | .ok g' => g'
    | .error _ => g
  else g

/-- The `while (true)` body of `LevelGenerator.carveLine` (Bresenham), with
fuel `dx + dy + 1`, which the stepping rule never exhausts. -/
def carveLineAux (ty : String) (x2 y2 dx dy sx sy : ℤ) :
    ℕ → Grid → ℤ → ℤ → ℤ → Grid
  | 0, g, _, _, _ => g
  | fuel + 1, g, x, y, err =>
    let g' := carveAt g x y ty
    if x = x2 ∧ y = y2 then g'
    else
      let e2 := 2 * err
      let err1 := if e2 > -dy then err - dy else err
      let x' := if e2 > -dy then x + sx else x
      let err2 := if e2 < dx then err1 + dx else err1
      let y' := if e2 < dx then y + sy else y
      carveLineAux ty x2 y2 dx dy sx sy fuel g' x' y' err2

/-- `LevelGenerator.carveLine`. -/
def carveLine (g : Grid) (x1 y1 x2 y2 : ℤ) (ty : String) : Grid :=
  let dx := |x2 - x1|
  let dy := |y2 - y1|
  let sx : ℤ := if x1 < x2 then 1 else -1
  let sy : ℤ := if y1 < y2 then 1 else -1
  carveLineAux ty x2 y2 dx dy sx sy (dx.toNat + dy.toNat + 1) g x1 y1 (dx - dy)

/-- `LevelGenerator.createPathfinderGrid`: 0 for walkable (`PATH`, `spawn`,
`end`), 1 otherwise (including a `null` tile). -/
def createPathfinderGrid (g : Grid) : List (List ℕ) :=
  (List.range g.height.toNat).map fun y =>
    (List.range g.width.toNat).map fun x =>
      match g.getTile (x : ℤ) (y : ℤ) with
      | some t =>
        if t.tileType = "PATH" ∨ t.tileType = "spawn" ∨ t.tileType = "end"
          then 0 else 1
      | none => 1

/-- The drunken-walk loop of `generateWanderingPath` (`margin = 5`). The
walk only makes progress on a forward roll, so for an adversarial stream it
never terminates; fuel exhaustion models that divergence as `none`. -/
def wanderWalk (rand : ℕ → ℚ) : ℕ → Grid → ℤ → ℤ → ℕ →
    Option (Grid × ℤ × ℤ × ℕ)
  | 0, _, _, _, _ => none
  | fuel + 1, g, x, y, k =>
    if x < g.width - 1 then
      let g' := carveAt g x y "PATH"
      let roll := rand k
      if roll < 3 / 5 then wanderWalk rand fuel g' (x + 1) y (k + 1)
      else if roll < 4 / 5 then
        wanderWalk rand fuel g' x (max 5 (y - 1)) (k + 1)
      else wanderWalk rand fuel g' x (min (g.height - 1 - 5) (y + 1)) (k + 1)
    else some (g, x, y, k)

/-- `LevelGenerator.generateWanderingPath`: random start row, drunken walk,
completion carve, unguarded spawn/end tile writes, pathfinder confirmation.
Returns the tile route (`none` when the pathfinder finds no route) together
with the mutated grid and the random counter. -/
def generateWanderingPath (rand : ℕ → ℚ) (fuel : ℕ) (g : Grid) (k : ℕ) :
    Except String (Option (List Tile) × Grid × ℕ) := do
  let margin : ℤ := 5
  let startY := ⌊rand k * ((g.height : ℚ) - (margin : ℚ) * 2)⌋ + margin
  match wanderWalk rand fuel g 0 startY (k + 1) with
  | none => .error "the wandering walk never reaches the right edge"
  | some (g1, cx, cy, k1) =>
    let g2 := carveLine g1 cx cy (g1.width - 1) cy "PATH"
    let g3 ← g2.setTileType 0 startY "spawn"
    let g4 ← g3.setTileType (g3.width - 1) cy "end"
    let route := findPath (createPathfinderGrid g4) (0, startY) (g4.width - 1, cy)
    if route = [] then pure (none, g4, k1)
    else pure (some (route.filterMap fun c => g4.getTile c.1 c.2), g4, k1)

/-- The body of `generateElbowPath` after its three random draws: three
carved segments, unguarded spawn/end tile writes, pathfinder confirmation. -/
def elbowTail (g : Grid) (startY endY elbowX : ℤ) (k3 : ℕ) :
    Except String (Option (List Tile) × Grid × ℕ) := do
  let g1 := carveLine g 0 startY elbowX startY "PATH"
  let g2 := carveLine g1 elbowX startY elbowX endY "PATH"
  let g3 := carveLine g2 elbowX endY (g2.width - 1) endY "PATH"
  let g4 ← g3.setTileType 0 startY "spawn"
  let g5 ← g4.setTileType (g4.width - 1) endY "end"
  let route := findPath (createPathfinderGrid g5) (0, startY) (g5.width - 1, endY)
  if route = [] then pure (none, g5, k3)
  else pure (some (route.filterMap fun c => g5.getTile c.1 c.2), g5, k3)

/-- `LevelGenerator.generateElbowPath` (`margin = 3`): two random end rows
and a random elbow column, then `elbowTail`. -/
def generateElbowPath (rand : ℕ → ℚ) (g : Grid) (k : ℕ) :
    Except String (Option (List Tile) × Grid × ℕ) :=
  let margin : ℤ := 3
  elbowTail g
    (⌊rand k * ((g.height : ℚ) - (margin : ℚ) * 2)⌋ + margin)
    (⌊rand (k + 1) * ((g.height : ℚ) - (margin : ℚ) * 2)⌋ + margin)
    (⌊rand (k + 2) * ((g.width : ℚ) - (margin : ℚ) * 4)⌋ + margin * 2)
    (k + 3)

/-- The `switch (pathType)` of `generatePaths`: unknown types only warn and
produce no path. -/
def runPathGen (rand : ℕ → ℚ) (fuel : ℕ) (ty : String) (g : Grid) (k : ℕ) :
    Except String (Option (List Tile) × Grid × ℕ) :=
  if ty = "elbow" then generateElbowPath rand g k
  else if ty = "wandering" then generateWanderingPath rand fuel g k
  else .ok (none, g, k)

/-- The inner `for (let i = 0; i < count; i++)` loop of `generatePaths`:
successful paths are appended in order, `null` results are dropped. -/
def generateCount (rand : ℕ → ℚ) (fuel : ℕ) (ty : String) :
    ℕ → Grid → ℕ → Except String (List (List Tile) × Grid × ℕ)
  | 0, g, k => .ok ([], g, k)
  | n + 1, g, k => do
    let (res, g1, k1) ← runPathGen rand fuel ty g k
    let (rest, g2, k2) ← generateCount rand fuel ty n g1 k1
    .ok ((match res with | some p => [p] | none => []) ++ rest, g2, k2)

/-- `LevelGenerator.generatePaths`: iterate `paths_config` in key order. -/
def generatePaths (rand : ℕ → ℚ) (fuel : ℕ) :
    List (String × ℕ) → Grid → ℕ →
    Except String (List (List Tile) × Grid × ℕ)
  | [], g, k => .ok ([], g, k)
  | (ty, n) :: rest, g, k => do
    let (ps, g1, k1) ← generateCount rand fuel ty n g k
    let (ps2, g2, k2) ← generatePaths rand fuel rest g1 k1
    .ok (ps ++ ps2, g2, k2)

/-- The inner `for (attempt …)` loop of `placeFeatures`: up to 10 random
probes; a `BUILDABLE` hit is rewritten (in bounds because `getTile`
succeeded) and stops the loop. -/
def placeFeatureAttempt (rand : ℕ → ℚ) (g : Grid) (ty : String) :
    ℕ → ℕ → Except String (Grid × ℕ)
  | 0, k => .ok (g, k)
  | a + 1, k =>
    let x := ⌊rand k * (g.width : ℚ)⌋
    let y := ⌊rand (k + 1) * (g.height : ℚ)⌋
    match g.getTile x y with
    | some t =>
      if t.tileType = "BUILDABLE" then do
        let g' ← g.setTileType x y ty
        .ok (g', k + 2)
      else placeFeatureAttempt rand g ty a (k + 2)
    | none => placeFeatureAttempt rand g ty a (k + 2)

/-- The per-feature count loop of `placeFeatures`. -/
def placeFeatureCount (rand : ℕ → ℚ) (ty : String) :
    ℕ → Grid → ℕ → Except String (Grid × ℕ)
  | 0, g, k => .ok (g, k)
  | n + 1, g, k => do
    let (g1, k1) ← placeFeatureAttempt rand g ty 10 k
    placeFeatureCount rand ty n g1 k1

/-- `LevelGenerator.placeFeatures`: for each feature a random count in
`[min, max]` (a negative count runs zero placements) of tiles of the type
named by the singular, upper-cased feature key. -/
def placeFeatures (rand : ℕ → ℚ) :
    List (String × FeatureRange) → Grid → ℕ → Except String (Grid × ℕ)
  | [], g, k => .ok (g, k)
  | (name, fr) :: rest, g, k => do
    let count := ⌊rand k * ((fr.max - fr.min + 1 : ℤ) : ℚ)⌋ + fr.min
    let ty := (name.dropRight 1).toUpper
    let (g1, k1) ← placeFeatureCount rand ty count.toNat g (k + 1)
    placeFeatures rand rest g1 k1

/-- `LevelGenerator.generateLevel`: `null` (`none`) for an unknown style or
when no path was carved; otherwise the feature-decorated grid and the tile
routes scaled to pixel centers. A throwing `Grid` call surfaces as
`.error`. -/
def generateLevel (configs : Option AllConfigs) (rand : ℕ → ℚ) (fuel : ℕ)
    (styleName : String) : Except String (Option GenerationResult) := do
  match (configs.map AllConfigs.levelStyles).bind
      (fun t => lookupTable t styleName) with
  | none => .ok none
  | some style => do
    let params := style.generation_params
    let tileSize := (configs.map fun c => c.gameSettings.tile_size).getD 32
    let grid ← Grid.make params.grid_width params.grid_height
    let (tilePaths, g1, k1) ← generatePaths rand fuel params.paths_config grid 0
    if tilePaths = [] then .ok none
    else do
      let (g2, _) ← placeFeatures rand params.features g1 k1
      let pixelPaths := tilePaths.map fun path => path.map fun t =>
        ({ x := (t.x : ℚ) * tileSize + tileSize / 2,
           y := (t.y : ℚ) * tileSize + tileSize / 2 } : Vector2D)
      .ok (some { grid := g2, paths := pixelPaths })

/-- `gameStore`'s `initialState` (the data fields). -/
def initialState : GameState :=
  { appStatus := "main-menu"
    gold := 200
    health := 25
    currentWave := 0
    waveState :=
      { waveInProgress := false, timeToNextWave := 10, spawnQueue := [],
        spawnCooldown := 0 }
    enemies := []
    towers := []
    projectiles := []
    auras := []
    selectedTowerForBuild := none
    selectedTowerInstanceId := none
    grid := none
    paths := none
    levelStyle := none
    camera := { offset := { x := 0, y := 0 }, zoom := 1 } }

/-- `gameStore.initializeGameSession`: bail out (state unchanged) when
configs are missing, generation returns `null`, or no path was produced;
otherwise replace the whole session with a fresh `initialState` carrying
the generated grid and paths and enter `in-game` mode. -/
def initializeGameSession (configs : Option AllConfigs) (rand : ℕ → ℚ)
    (fuel : ℕ) (levelStyle : String) (state : GameState) :
    Except String GameState :=
  match configs with
  | none => .ok state
  | some cfgs => do
    let res ← generateLevel (some cfgs) rand fuel levelStyle
    match res with
    | none => .ok state
    | some generationResult =>
      if generationResult.paths.length = 0 then .ok state
      else .ok { initialState with
        grid := some generationResult.grid,
        paths := some generationResult.paths,
        levelStyle := some levelStyle,
        appStatus := "in-game" }

theorem setTileType_dims (g : Grid) (x y : ℤ) (ty : String)
    (h : g.isValidCoord x y = true) :
    ∃ g', g.setTileType x y ty = .ok g' ∧
      g'.width = g.width ∧ g'.height = g.height := by
  unfold Grid.setTileType
  rw [if_neg (by simp [h])]
  exact ⟨_, rfl, rfl, rfl⟩

theorem carveAt_dims (g : Grid) (x y : ℤ) (ty : String) :
    (carveAt g x y ty).width = g.width ∧
    (carveAt g x y ty).height = g.height := by
  unfold carveAt Grid.setTileType
  by_cases h : g.isValidCoord x y = true
  · simp [h]
  · simp [h]

theorem carveLineAux_dims (ty : String) (x2 y2 dx dy sx sy : ℤ) :
    ∀ (fuel : ℕ) (g : Grid) (x y err : ℤ),
      (carveLineAux ty x2 y2 dx dy sx sy fuel g x y err).width = g.width ∧
      (carveLineAux ty x2 y2 dx dy sx sy fuel g x y err).height = g.height := by
  intro fuel
  induction fuel with
  | zero => intro g x y err; exact ⟨rfl, rfl⟩
  | succ f ih =>
    intro g x y err
    unfold carveLineAux
    dsimp only
    split
    · exact carveAt_dims g x y ty
    · obtain ⟨hw, hh⟩ := ih (carveAt g x y ty) _ _ _
      obtain ⟨hw2, hh2⟩ := carveAt_dims g x y ty
      exact ⟨hw.trans hw2, hh.trans hh2⟩

theorem carveLine_dims (g : Grid) (x1 y1 x2 y2 : ℤ) (ty : String) :
    (carveLine g x1 y1 x2 y2 ty).width = g.width ∧
    (carveLine g x1 y1 x2 y2 ty).height = g.height := by
  unfold carveLine
  exact carveLineAux_dims ty x2 y2 _ _ _ _ _ g x1 y1 _

theorem getTile_some_valid (g : Grid) (x y : ℤ) (t : Tile)
    (h : g.getTile x y = some t) : g.isValidCoord x y = true := by
  unfold Grid.getTile at h
  by_cases hv : g.isValidCoord x y = true
  · exact hv
  · rw [if_neg (by simpa using hv)] at h
    exact absurd h (by simp)

theorem grid_make_ok (width height : ℤ) (hw : 0 < width) (hh : 0 < height) :
    ∃ g, Grid.make width height = .ok g ∧
      g.width = width ∧ g.height = height := by
  unfold Grid.make
  rw [if_neg (by omega)]
  exact ⟨_, rfl, rfl, rfl⟩

theorem floor_rand_bounds (r : ℚ) (m : ℤ) (h0 : 0 ≤ r) (h1 : r < 1)
    (hm : 0 < m) : 0 ≤ ⌊r * (m : ℚ)⌋ ∧ ⌊r * (m : ℚ)⌋ < m := by
  constructor
  · exact Int.floor_nonneg.mpr (mul_nonneg h0 (by exact_mod_cast hm.le))
  · rw [Int.floor_lt]
    calc r * (m : ℚ) < 1 * (m : ℚ) :=
          mul_lt_mul_of_pos_right h1 (by exact_mod_cast hm)
      _ = (m : ℚ) := one_mul _

theorem lookupTable_mem {α : Type} (table : List (String × α)) (key : String)
    (v : α) (h : lookupTable table key = some v) : ∃ kv ∈ table, kv.2 = v := by
  unfold lookupTable at h
  cases hf : table.find? (fun kv => kv.1 == key) with
  | none => rw [hf] at h; exact absurd h (by simp)
  | some kv =>
    rw [hf] at h
    simp only [Option.map_some'] at h
    exact ⟨kv, List.mem_of_find?_eq_some hf, Option.some.inj h⟩

theorem elbowTail_ok (g : Grid) (startY endY elbowX : ℤ) (k3 : ℕ)
    (hw : 0 < g.width) (hs0 : 0 ≤ startY) (hs1 : startY < g.height)
    (he0 : 0 ≤ endY) (he1 : endY < g.height) :
    ∃ out g' k', elbowTail g startY endY elbowX k3 = .ok (out, g', k') ∧
      g'.width = g.width ∧ g'.height = g.height := by
  obtain ⟨hw1, hh1⟩ := carveLine_dims g 0 startY elbowX startY "PATH"
  set g1 := carveLine g 0 startY elbowX startY "PATH" with hg1
  obtain ⟨hw2, hh2⟩ := carveLine_dims g1 elbowX startY elbowX endY "PATH"
  set g2 := carveLine g1 elbowX startY elbowX endY "PATH" with hg2
  obtain ⟨hw3, hh3⟩ := carveLine_dims g2 elbowX endY (g2.width - 1) endY "PATH"
  set g3 := carveLine g2 elbowX endY (g2.width - 1) endY "PATH" with hg3
  have valid1 : g3.isValidCoord 0 startY = true := by
    simp only [Grid.isValidCoord, decide_eq_true_eq]
    omega
  obtain ⟨g4, hset1, hw4, hh4⟩ := setTileType_dims g3 0 startY "spawn" valid1
  have valid2 : g4.isValidCoord (g4.width - 1) endY = true := by
    simp only [Grid.isValidCoord, decide_eq_true_eq]
    omega
  obtain ⟨g5, hset2, hw5, hh5⟩ := setTileType_dims g4 (g4.width - 1) endY "end" valid2
  unfold elbowTail
  dsimp only
  rw [hset1]
  dsimp only [Bind.bind, Except.bind]
  rw [hset2]
  dsimp only [Bind.bind, Except.bind]
  by_cases hroute :
      findPath (createPathfinderGrid g5) (0, startY) (g5.width - 1, endY) = []
  · rw [if_pos hroute]
    exact ⟨none, g5, k3, rfl, by omega, by omega⟩
  · rw [if_neg hroute]
    exact ⟨_, g5, k3, rfl, by omega, by omega⟩

theorem bind_ok_eq {ε α β : Type} {x : Except ε α} {a : α}
    (h : x = Except.ok a) (f : α → Except ε β) : (x >>= f) = f a := by
  rw [h]
  rfl

theorem generateElbowPath_ok (rand : ℕ → ℚ) (g : Grid) (k : ℕ)
    (hrand : ∀ n, 0 ≤ rand n ∧ rand n < 1)
    (hw : 0 < g.width) (hh : 7 ≤ g.height) :
    ∃ out g' k', generateElbowPath rand g k = .ok (out, g', k') ∧
      g'.width = g.width ∧ g'.height = g.height := by
  have hcast : (g.height : ℚ) - ((3 : ℤ) : ℚ) * 2 = ((g.height - 6 : ℤ) : ℚ) := by
    push_cast; ring
  have hb1 := floor_rand_bounds (rand k) (g.height - 6) (hrand k).1
    (hrand k).2 (by omega)
  have hb2 := floor_rand_bounds (rand (k + 1)) (g.height - 6) (hrand (k + 1)).1
    (hrand (k + 1)).2 (by omega)
  unfold generateElbowPath
  dsimp only
  rw [hcast]
  exact elbowTail_ok g _ _ _ (k + 3) hw (by omega) (by omega) (by omega) (by omega)

theorem runPathGen_ok (rand : ℕ → ℚ) (fuel : ℕ) (ty : String) (g : Grid)
    (k : ℕ) (hrand : ∀ n, 0 ≤ rand n ∧ rand n < 1)
    (hty : ty ≠ "wandering") (hw : 0 < g.width) (hh : 7 ≤ g.height) :
    ∃ out g' k', runPathGen rand fuel ty g k = .ok (out, g', k') ∧
      g'.width = g.width ∧ g'.height = g.height := by
  unfold runPathGen
  by_cases he : ty = "elbow"
  · rw [if_pos he]
    exact generateElbowPath_ok rand g k hrand hw hh
  · rw [if_neg he, if_neg hty]
    exact ⟨none, g, k, rfl, rfl, rfl⟩

theorem generateCount_ok (rand : ℕ → ℚ) (fuel : ℕ) (ty : String)
    (hrand : ∀ n, 0 ≤ rand n ∧ rand n < 1) (hty : ty ≠ "wandering") :
    ∀ (n : ℕ) (g : Grid) (k : ℕ), 0 < g.width → 7 ≤ g.height →
      ∃ ps g' k', generateCount rand fuel ty n g k = .ok (ps, g', k') ∧
        g'.width = g.width ∧ g'.height = g.height := by
  intro n
  induction n with
  | zero => intro g k _ _; exact ⟨[], g, k, rfl, rfl, rfl⟩
  | succ m ih =>
    intro g k hw hh
    obtain ⟨out, g1, k1, hrun, hw1, hh1⟩ := runPathGen_ok rand fuel ty g k
      hrand hty hw hh
    obtain ⟨ps, g2, k2, hrest, hw2, hh2⟩ := ih g1 k1 (by omega) (by omega)
    refine ⟨(match out with | some p => [p] | none => []) ++ ps, g2, k2, ?_,
      by omega, by omega⟩
    unfold generateCount
    rw [bind_ok_eq hrun]
    dsimp only
    rw [bind_ok_eq hrest]
    cases out <;> rfl

theorem generatePaths_ok (rand : ℕ → ℚ) (fuel : ℕ)
    (hrand : ∀ n, 0 ≤ rand n ∧ rand n < 1) :
    ∀ (cfg : List (String × ℕ)) (g : Grid) (k : ℕ),
      (∀ pc ∈ cfg, pc.1 ≠ "wandering") → 0 < g.width → 7 ≤ g.height →
      ∃ ps g' k', generatePaths rand fuel cfg g k = .ok (ps, g', k') ∧
        g'.width = g.width ∧ g'.height = g.height := by
  intro cfg
  induction cfg with
  | nil => intro g k _ _ _; exact ⟨[], g, k, rfl, rfl, rfl⟩
  | cons pc rest ih =>
    intro g k hcfg hw hh
    obtain ⟨ps1, g1, k1, hcnt, hw1, hh1⟩ := generateCount_ok rand fuel pc.1
      hrand (hcfg pc (List.mem_cons_self _ _)) pc.2 g k hw hh
    obtain ⟨ps2, g2, k2, hrest, hw2, hh2⟩ := ih g1 k1
      (fun q hq => hcfg q (List.mem_cons_of_mem _ hq)) (by omega) (by omega)
    refine ⟨ps1 ++ ps2, g2, k2, ?_, by omega, by omega⟩
    unfold generatePaths
    rw [bind_ok_eq hcnt]
    dsimp only
    rw [bind_ok_eq hrest]

theorem placeFeatureAttempt_ok (rand : ℕ → ℚ) (g : Grid) (ty : String) :
    ∀ (a k : ℕ), ∃ g' k', placeFeatureAttempt rand g ty a k = .ok (g', k') ∧
      g'.width = g.width ∧ g'.height = g.height := by
  intro a
  induction a with
  | zero => intro k; exact ⟨g, k, rfl, rfl, rfl⟩
  | succ m ih =>
    intro k
    unfold placeFeatureAttempt
    dsimp only
    cases hg : g.getTile ⌊rand k * (g.width : ℚ)⌋ ⌊rand (k + 1) * (g.height : ℚ)⌋ with
    | none => exact ih (k + 2)
    | some t =>
      dsimp only
      by_cases hb : t.tileType = "BUILDABLE"
      · rw [if_pos hb]
        obtain ⟨g', hset, hw, hh⟩ := setTileType_dims g _ _ ty
          (getTile_some_valid g _ _ t hg)
        refine ⟨g', k + 2, ?_, hw, hh⟩
        rw [bind_ok_eq hset]
      · rw [if_neg hb]
        exact ih (k + 2)

theorem placeFeatureCount_ok (rand : ℕ → ℚ) (ty : String) :
    ∀ (n : ℕ) (g : Grid) (k : ℕ),
      ∃ g' k', placeFeatureCount rand ty n g k = .ok (g', k') ∧
        g'.width = g.width ∧ g'.height = g.height := by
  intro n
  induction n with
  | zero => intro g k; exact ⟨g, k, rfl, rfl, rfl⟩
  | succ m ih =>
    intro g k
    obtain ⟨g1, k1, hat, hw1, hh1⟩ := placeFeatureAttempt_ok rand g ty 10 k
    obtain ⟨g2, k2, hcnt, hw2, hh2⟩ := ih g1 k1
    refine ⟨g2, k2, ?_, by omega, by omega⟩
    unfold placeFeatureCount
    rw [bind_ok_eq hat]
    dsimp only
    exact hcnt

theorem placeFeatures_ok (rand : ℕ → ℚ) :
    ∀ (fs : List (String × FeatureRange)) (g : Grid) (k : ℕ),
      ∃ g' k', placeFeatures rand fs g k = .ok (g', k') ∧
        g'.width = g.width ∧ g'.height = g.height := by
  intro fs
  induction fs with
  | nil => intro g k; exact ⟨g, k, rfl, rfl, rfl⟩
  | cons f rest ih =>
    intro g k
    obtain ⟨g1, k1, hcnt, hw1, hh1⟩ := placeFeatureCount_ok rand
      ((f.1.dropRight 1).toUpper)
      (⌊rand k * ((f.2.max - f.2.min + 1 : ℤ) : ℚ)⌋ + f.2.min).toNat g (k + 1)
    obtain ⟨g2, k2, hrest, hw2, hh2⟩ := ih g1 k1
    refine ⟨g2, k2, ?_, by omega, by omega⟩
    unfold placeFeatures
    dsimp only
    rw [bind_ok_eq hcnt]
    dsimp only
    exact hrest

theorem generateLevel_ok (configs : Option AllConfigs) (rand : ℕ → ℚ)
    (fuel : ℕ) (styleName : String)
    (hrand : ∀ n, 0 ≤ rand n ∧ rand n < 1)
    (hstyles : ∀ kv ∈ (configs.elim [] AllConfigs.levelStyles),
      0 < kv.2.generation_params.grid_width ∧
      7 ≤ kv.2.generation_params.grid_height ∧
      ∀ pc ∈ kv.2.generation_params.paths_config, pc.1 ≠ "wandering") :
    ∃ o, generateLevel configs rand fuel styleName = .ok o := by
  unfold generateLevel
  cases configs with
  | none => exact ⟨none, rfl⟩
  | some cfgs =>
    dsimp only [Option.map_some', Option.some_bind]
    cases hlook : lookupTable cfgs.levelStyles styleName with
    | none => exact ⟨none, rfl⟩
    | some style =>
      obtain ⟨kv, hkv, hkveq⟩ := lookupTable_mem cfgs.levelStyles styleName
        style hlook
      obtain ⟨hgw, hgh, hpc⟩ := hstyles kv hkv
      rw [hkveq] at hgw hgh hpc
      obtain ⟨grid, hmk, hmw, hmh⟩ := grid_make_ok
        style.generation_params.grid_width style.generation_params.grid_height
        (by omega) (by omega)
      obtain ⟨ps, g1, k1, hgen, hw1, hh1⟩ := generatePaths_ok rand fuel hrand
        style.generation_params.paths_config grid 0 hpc (by omega) (by omega)
      dsimp only
      rw [bind_ok_eq hmk]
      rw [bind_ok_eq hgen]
      by_cases hps : ps = []
      · rw [if_pos hps]
        exact ⟨none, rfl⟩
      · rw [if_neg hps]
        obtain ⟨g2, k2, hpf, hw2, hh2⟩ := placeFeatures_ok rand
          style.generation_params.features g1 k1
        rw [bind_ok_eq hpf]
        exact ⟨_, rfl⟩

/-- The state committed by a successful `initializeGameSession`: a fresh
`initialState` carrying the generated grid and routes, in `in-game` mode. -/
def installedState (style : String) (res : GenerationResult) : GameState :=
  { initialState with grid := some res.grid, paths := some res.paths, levelStyle := some style, appStatus := "in-game" }

/-- C6: for every level-style id, `initializeGameSession` either leaves the
session state entirely unchanged or installs the generated grid and routes
on a fresh `initialState` and enters `in-game` mode; unknown styles, zero
carved routes and pathfinder-rejected routes surface as the unchanged-state
outcome through `generateLevel`'s `none` (an unknown style yields `.ok none`
directly), and no outcome is a thrown error. Hypotheses: every random draw
lies in `[0, 1)` (a JavaScript guarantee) and every configured level style
has positive grid width, grid height at least 7 and no `wandering` route
entries (the shipped styles satisfy this; the wandering walk's termination
is probabilistic, and a sub-7 height could make the carvers' unguarded
spawn/end tile writes throw). -/
theorem session_start_atomic (configs : Option AllConfigs) (rand : ℕ → ℚ)
    (fuel : ℕ) (style : String) (s : GameState)
    (hrand : ∀ n, 0 ≤ rand n ∧ rand n < 1)
    (hstyles : ∀ kv ∈ (configs.elim [] AllConfigs.levelStyles),
      0 < kv.2.generation_params.grid_width ∧
      7 ≤ kv.2.generation_params.grid_height ∧
      ∀ pc ∈ kv.2.generation_params.paths_config, pc.1 ≠ "wandering") :
    (∃ r, initializeGameSession configs rand fuel style s = .ok r ∧
      (r = s ∨ ∃ res : GenerationResult, res.paths ≠ [] ∧
        r = installedState style res)) ∧
    (∀ cfgs, configs = some cfgs → lookupTable cfgs.levelStyles style = none →
      generateLevel configs rand fuel style = .ok none) := by
  constructor
  · cases configs with
    | none => exact ⟨s, rfl, Or.inl rfl⟩
    | some cfgs =>
      obtain ⟨o, hgen⟩ := generateLevel_ok (some cfgs) rand fuel style
        hrand hstyles
      unfold initializeGameSession
      dsimp only
      rw [bind_ok_eq hgen]
      cases o with
      | none => exact ⟨s, rfl, Or.inl rfl⟩
      | some res =>
        dsimp only
        by_cases hp : res.paths.length = 0
        · rw [if_pos hp]
          exact ⟨s, rfl, Or.inl rfl⟩
        · rw [if_neg hp]
          refine ⟨_, rfl, Or.inr ⟨res, ?_, rfl⟩⟩
          intro hnil
          exact hp (by rw [hnil]; rfl)
  · intro cfgs hc hlook
    subst hc
    unfold generateLevel
    dsimp only [Option.map_some', Option.some_bind]
    rw [hlook]

/-- A concrete configuration bundle with one elbow-style level. -/
def sessionConfigs : AllConfigs :=
  { towerTypes := []
    towerUpgrades := []
    enemyTypes := []
    gameSettings := { tile_size := 32, difficulty := 1 }
    waveScaling :=
      { spawn_cooldown :=
          { minimum_seconds := 1, base_seconds := 5, reduction_per_wave := 0,
            reduction_per_level_difficulty := 0 },
        enemy_count := { base := 5, per_wave := 1, per_level_difficulty := 1 } }
    difficultyScaling := []
    levelStyles :=
      [("forest",
        { generation_params :=
            { grid_width := 10, grid_height := 10,
              paths_config := [("elbow", 1)], features := [] } })] }

/-- Witness for `session_start_atomic`: the constant-zero random stream is
in `[0, 1)` and `sessionConfigs`' single style is a valid elbow style. -/
theorem session_start_atomic_witness :
    (∀ n : ℕ, 0 ≤ (fun _ : ℕ => (0 : ℚ)) n ∧ (fun _ : ℕ => (0 : ℚ)) n < 1) ∧
    (∀ kv ∈ ((some sessionConfigs).elim [] AllConfigs.levelStyles),
      0 < kv.2.generation_params.grid_width ∧
      7 ≤ kv.2.generation_params.grid_height ∧
      ∀ pc ∈ kv.2.generation_params.paths_config, pc.1 ≠ "wandering") ∧
    ((∃ r, initializeGameSession (some sessionConfigs) (fun _ => 0) 0 "forest"
          initialState = .ok r ∧
        (r = initialState ∨ ∃ res : GenerationResult, res.paths ≠ [] ∧
          r = installedState "forest" res)) ∧
      (∀ cfgs, some sessionConfigs = some cfgs →
        lookupTable cfgs.levelStyles "forest" = none →
        generateLevel (some sessionConfigs) (fun _ => 0) 0 "forest" =
          .ok none)) :=
  ⟨fun _ => ⟨le_refl 0, by norm_num⟩, by decide,
    session_start_atomic (some sessionConfigs) (fun _ => 0) 0 "forest"
      initialState (fun _ => ⟨le_refl 0, by norm_num⟩) (by decide)⟩
